import Mathlib

/-!
# UnrealSharp: component-template resolution

A shallow embedding of `UCSActorExtensions::GetComponentTemplate`, `CreateNewRecord` and
`FindBestArchetype` (Source/UnrealSharpCore/Extensions/Libraries/CSActorExtensions.cpp).

The three functions walk an object graph owned by Unreal Engine.  The graph is embedded as
plain data: classes live in a table indexed by `ClassId`, a pointer to a class is an
`Option ClassId`, and a pointer to a component or to a construction-script node is an
`Option` of a value that carries its own identity (`Id`).  The engine calls that the three
functions make (`FindSCSNode`, `FindKey`, `GetOverridenComponentTemplate`,
`GetOriginalTemplate`, `GetInheritableComponentHandler`, `NewObject`, ...) are embedded after
their engine implementation (Engine/InheritableComponentHandler, Engine/SimpleConstructionScript,
Engine/BlueprintGeneratedClass), runtime configuration (the `WITH_EDITOR` blocks compiled out).

Loops over the super-class chain take a fuel argument: one unit per evaluation of the loop
condition.  Running out of fuel is the error `Err.outOfFuel`; dereferencing a null pointer is
the error `Err.nullDeref`.
-/

namespace UnrealSharp

/-! ## Data model -/

/-- An `FName`, taken as already case-normalised; the empty name is `NAME_None`. -/
abbrev FName := String

/-- The engine's `NAME_None`. -/
def NAME_None : FName := ""

/-- The engine's `FName::ToString`: `NAME_None` prints as `None`. -/
def FName.ToString (n : FName) : String :=
  if n = NAME_None then "None" else n

/-- An `FGuid`; `0` is the invalid (all-zero) GUID. -/
abbrev FGuid := Nat

/-- The engine's `FGuid::IsValid`. -/
def FGuid.IsValid (g : FGuid) : Bool := g != 0

/-- A class is named by its index in the class table of the world. -/
abbrev ClassId := Nat

/-- The object flags that `CreateNewRecord` passes to `NewObject`. -/
inductive EObjectFlags where
  | RF_ArchetypeObject
  | RF_Public
  | RF_InheritableComponentTemplate
  deriving DecidableEq, Repr

/-- A `UActorComponent` object, as seen through a pointer to it: `Id` is its identity
(address), `Class` its `GetClass()`, `Archetype` the identity of the template it was instanced
from.  As in the engine, an object has a name (`Name` is not `NAME_None`). -/
structure UActorComponent where
  Id : Nat
  Name : FName
  Class : Nat
  Outer : Option ClassId
  Flags : List EObjectFlags
  Archetype : Option Nat
  deriving DecidableEq, Repr

/-- A `USCS_Node`: `Id` is its identity (address). -/
structure USCS_Node where
  Id : Nat
  VariableName : FName
  VariableGuid : FGuid
  ComponentTemplate : Option UActorComponent
  deriving DecidableEq, Repr

/-- A `USimpleConstructionScript`.  Its `GetOwnerClass()` is the class whose
`SimpleConstructionScript` field holds it. -/
structure USimpleConstructionScript where
  AllNodes : List USCS_Node
  DefaultSceneRootNode : Option USCS_Node
  deriving DecidableEq, Repr

/-- An `FComponentKey`. -/
structure FComponentKey where
  OwnerClass : Option ClassId
  SCSVariableName : FName
  AssociatedGuid : FGuid
  deriving DecidableEq, Repr

/-- An `FComponentOverrideRecord`. -/
structure FComponentOverrideRecord where
  ComponentClass : Option Nat
  ComponentTemplate : Option UActorComponent
  ComponentKey : FComponentKey
  deriving DecidableEq, Repr

/-- A `UInheritableComponentHandler`: its outer (a class, or `none` when the outer is not a
class) and its `Records` array. -/
structure UInheritableComponentHandler where
  Outer : Option ClassId
  Records : List FComponentOverrideRecord
  deriving DecidableEq, Repr

/-- What a `UClass*` points to: a native class, a Blueprint-generated class, or a managed
class (`UCSClass`, itself a Blueprint-generated class). -/
inductive EClassKind where
  | Native
  | BlueprintGenerated
  | Managed
  deriving DecidableEq, Repr

/-- A `UClass`.  The last two fields are those of `UBlueprintGeneratedClass` and are read only
after a successful cast. -/
structure UClass where
  SuperClass : Option ClassId
  Kind : EClassKind
  SimpleConstructionScript : Option USimpleConstructionScript
  InheritableComponentHandler : Option UInheritableComponentHandler
  deriving DecidableEq, Repr

/-- An `AActor`: `bValid` is what `IsValid` reports for a non-null actor. -/
structure AActor where
  Name : String
  Class : ClassId
  bValid : Bool
  deriving DecidableEq, Repr

/-- The engine state the functions read and write: the class table, the identity the next
freshly allocated object gets, and the `bEnableInheritableComponents` setting. -/
structure World where
  Classes : List UClass
  NextObjectId : Nat
  bEnableInheritableComponents : Bool
  deriving DecidableEq, Repr

/-- How a run can fail. -/
inductive Err where
  | outOfFuel
  | nullDeref
  deriving DecidableEq, Repr

deriving instance DecidableEq for Except

/-- A line written by `UE_LOG`. -/
structure FLogLine where
  Category : String
  Verbosity : String
  Message : String
  deriving DecidableEq, Repr

/-- What one call of `GetComponentTemplate` leaves behind: the returned pointer, the engine
state, the lines logged, and (ghost) the classes the outer loop examined, in order. -/
structure Outcome where
  Ret : Option UActorComponent
  World : World
  Log : List FLogLine
  Visited : List ClassId
  deriving DecidableEq, Repr

/-! ## Engine calls -/

/-- The engine's `Cast<UBlueprintGeneratedClass>(p)`: the class and its data when `p` points to
a Blueprint-generated (or managed) class, null otherwise. -/
def CastBPGC (W : World) (p : Option ClassId) : Option (ClassId × UClass) :=
  match p with
  | none => none
  | some c =>
    match W.Classes[c]? with
    | none => none
    | some cls => if cls.Kind = EClassKind.Native then none else some (c, cls)

/-- The engine's `IsValid(Actor)`. -/
def IsValid (Actor : Option AActor) : Bool :=
  match Actor with
  | none => false
  | some a => a.bValid

/-- Whether a node answers to a name: `USimpleConstructionScript::FindSCSNode` compares the
variable name and the template's `FName`. -/
def USCS_Node.named (InName : FName) (n : USCS_Node) : Bool :=
  n.VariableName == InName ||
    (match n.ComponentTemplate with
     | some t => t.Name == InName
     | none => false)

/-- The engine's `USimpleConstructionScript::FindSCSNode(InName)`: the first node that answers
to the name (the scan over `GetAllNodes()`; the name map built for cooked scripts answers the
same as long as names are unique). -/
def USimpleConstructionScript.FindSCSNode (SCS : USimpleConstructionScript) (InName : FName) :
    Option USCS_Node :=
  SCS.AllNodes.find? (USCS_Node.named InName)

/-- The engine's `USimpleConstructionScript::FindSCSNodeByGuid`. -/
def USimpleConstructionScript.FindSCSNodeByGuid (SCS : USimpleConstructionScript) (Guid : FGuid) :
    Option USCS_Node :=
  SCS.AllNodes.find? (fun n => n.VariableGuid == Guid)

/-- The engine's default `FComponentKey()`. -/
def FComponentKey.empty : FComponentKey :=
  { OwnerClass := none, SCSVariableName := NAME_None, AssociatedGuid := 0 }

/-- The engine's `FComponentKey(const USCS_Node*)` for a node of the construction script of
class `Owner`. -/
def FComponentKey.ofNode (Owner : ClassId) (Node : USCS_Node) : FComponentKey :=
  { OwnerClass := some Owner, SCSVariableName := Node.VariableName,
    AssociatedGuid := Node.VariableGuid }

/-- The engine's `FComponentKey::Match`: same owner and same GUID. -/
def FComponentKey.Match (a b : FComponentKey) : Bool :=
  a.OwnerClass == b.OwnerClass && a.AssociatedGuid == b.AssociatedGuid

/-- The engine's `FComponentKey::IsSCSKey`. -/
def FComponentKey.IsSCSKey (k : FComponentKey) : Bool :=
  k.SCSVariableName != NAME_None && FGuid.IsValid k.AssociatedGuid

/-- The engine's `FComponentKey::FindSCSNode`: the node with the key's GUID in the owner's
construction script, together with that script (the node's `GetSCS()`). -/
def FComponentKey.FindSCSNode (W : World) (k : FComponentKey) :
    Option (USimpleConstructionScript × USCS_Node) :=
  match CastBPGC W k.OwnerClass with
  | none => none
  | some (_, ParentClass) =>
    if k.IsSCSKey then
      match ParentClass.SimpleConstructionScript with
      | none => none
      | some ParentSCS =>
        (ParentSCS.FindSCSNodeByGuid k.AssociatedGuid).map (fun n => (ParentSCS, n))
    else none

/-- The engine's `FComponentKey::GetOriginalTemplate` (the template name only matters to the
editor-only branch). -/
def FComponentKey.GetOriginalTemplate (W : World) (k : FComponentKey) (_TemplateName : FName) :
    Option UActorComponent :=
  if k.IsSCSKey then
    match k.FindSCSNode W with
    | some (_, SCSNode) => SCSNode.ComponentTemplate
    | none => none
  else none

/-- The engine's `UInheritableComponentHandler::FindRecord`. -/
def UInheritableComponentHandler.FindRecord (h : UInheritableComponentHandler)
    (Key : FComponentKey) : Option FComponentOverrideRecord :=
  h.Records.find? (fun r => r.ComponentKey.Match Key)

/-- The engine's `UInheritableComponentHandler::GetOverridenComponentTemplate`. -/
def UInheritableComponentHandler.GetOverridenComponentTemplate
    (h : UInheritableComponentHandler) (Key : FComponentKey) : Option UActorComponent :=
  match h.FindRecord Key with
  | some r => r.ComponentTemplate
  | none => none

/-- Whether a record answers to a variable name in `FindKey`. -/
def FComponentOverrideRecord.named (VariableName : FName) (r : FComponentOverrideRecord) : Bool :=
  r.ComponentKey.SCSVariableName == VariableName ||
    (match r.ComponentTemplate with
     | some t => t.Name == VariableName
     | none => false)

/-- The engine's `UInheritableComponentHandler::FindKey(VariableName)`. -/
def UInheritableComponentHandler.FindKey (h : UInheritableComponentHandler)
    (VariableName : FName) : FComponentKey :=
  match h.Records.find? (FComponentOverrideRecord.named VariableName) with
  | some r => r.ComponentKey
  | none => FComponentKey.empty

/-- Store a handler in the `InheritableComponentHandler` field of class `c`. -/
def World.setHandler (W : World) (c : ClassId) (cls : UClass) (h : UInheritableComponentHandler) :
    World :=
  { W with Classes := W.Classes.set c { cls with InheritableComponentHandler := some h } }

/-- The engine's `UBlueprintGeneratedClass::GetInheritableComponentHandler(bCreateIfNecessary)`
on class `c` (data `cls`): null when inheritable components are disabled, the existing handler
when there is one (preloading it touches no record), else a fresh empty handler whose outer is
the class. -/
def GetInheritableComponentHandler (W : World) (c : ClassId) (cls : UClass)
    (bCreateIfNecessary : Bool) : World × Option UInheritableComponentHandler :=
  if W.bEnableInheritableComponents then
    match cls.InheritableComponentHandler with
    | some h => (W, some h)
    | none =>
      if bCreateIfNecessary then
        let h : UInheritableComponentHandler := { Outer := some c, Records := [] }
        (W.setHandler c cls h, some h)
      else (W, none)
  else (W, none)

/-- The component objects a class refers to: the templates of its construction-script nodes
and of its override records. -/
def UClass.objects (cls : UClass) : List UActorComponent :=
  (match cls.SimpleConstructionScript with
   | some SCS => SCS.AllNodes.filterMap (fun n => n.ComponentTemplate)
   | none => []) ++
  (match cls.InheritableComponentHandler with
   | some h => h.Records.filterMap (fun r => r.ComponentTemplate)
   | none => [])

/-- The component objects of the engine state: every component template is held by a
construction-script node or by an override record of some class. -/
def World.objects (W : World) : List UActorComponent :=
  (W.Classes.map UClass.objects).foldr (fun l acc => l ++ acc) []

/-- The engine's `StaticFindObjectFast(nullptr, Outer, Name)`: the object of that name that
lives in the outer, if any. -/
def World.FindObject (W : World) (Outer : Option ClassId) (Name : FName) :
    Option UActorComponent :=
  W.objects.find? (fun o => o.Outer == Outer && o.Name == Name)

/-- The engine's `NewObject<UActorComponent>(Outer, Class, Name, Flags, Template)` with an
explicit name (`StaticAllocateObject`): when an object of that name already lives in the outer
it is constructed anew in place, keeping its identity; otherwise a fresh object is allocated.
Either way the object is instanced from the template.  The object found is taken to be of a
class the engine accepts for the requested one.  A pointer being modelled by the value it
points to, the records that already hold the object keep the value they hold. -/
def NewObject (W : World) (Outer : Option ClassId) (Class : Nat) (Name : FName)
    (Flags : List EObjectFlags) (Template : UActorComponent) : World × UActorComponent :=
  match W.FindObject Outer Name with
  | some Existing =>
    (W,
     { Id := Existing.Id, Name := Name, Class := Class, Outer := Outer, Flags := Flags,
       Archetype := some Template.Id })
  | none =>
    ({ W with NextObjectId := W.NextObjectId + 1 },
     { Id := W.NextObjectId, Name := Name, Class := Class, Outer := Outer, Flags := Flags,
       Archetype := some Template.Id })

/-- Modelled from the spec: `FCSGeneratedClassBuilder::IsManagedType` is not among the source
files; a class pointer is of managed type when it points to a class generated for the managed
runtime. -/
def IsManagedType (W : World) (p : Option ClassId) : Option (ClassId × UClass) :=
  match p with
  | none => none
  | some c =>
    match W.Classes[c]? with
    | none => none
    | some cls => if cls.Kind = EClassKind.Managed then some (c, cls) else none

/-- Modelled from the spec: `FCSGeneratedClassBuilder::GetFirstManagedClass` is not among the
source files; it is the first class of managed type met when walking up from the given class
through `GetSuperClass`, or null when there is none. -/
def GetFirstManagedClass (W : World) : Nat → Option ClassId → Except Err (Option ClassId)
  | 0, _ => .error .outOfFuel
  | fuel + 1, p =>
    match p with
    | none => .ok none
    | some c =>
      match W.Classes[c]? with
      | none => .ok none
      | some cls =>
        if cls.Kind = EClassKind.Managed then .ok (some c)
        else GetFirstManagedClass W fuel cls.SuperClass

/-! ## CSActorExtensions.cpp -/

/-- The constant `ReflectionHelper::RootPrefix`. -/
def RootPrefix : String := "ICH-"

/-- The loop of `FindBestArchetype` (lines 128-136): `while (!ClosestArchetype && MainClass)`. -/
def FindBestArchetype.loop (W : World) (Key : FComponentKey) :
    Nat → Option UActorComponent → Option (ClassId × UClass) →
      Except Err (Option UActorComponent)
  | 0, _, _ => .error .outOfFuel
  | fuel + 1, ClosestArchetype, MainClass =>
    match ClosestArchetype, MainClass with
    | none, some (_, cls) =>
      let Closest :=
        match cls.InheritableComponentHandler with
        | some h => h.GetOverridenComponentTemplate Key
        | none => none
      FindBestArchetype.loop W Key fuel Closest (CastBPGC W cls.SuperClass)
    | _, _ => .ok ClosestArchetype

/-- The function `UCSActorExtensions::FindBestArchetype` (lines 121-145). -/
def FindBestArchetype (fuel : Nat) (W : World) (Outer : Option ClassId) (Key : FComponentKey)
    (TemplateName : FName) : Except Err (Option UActorComponent) :=
  match CastBPGC W Outer with
  | some (c, cls) =>
    if Key.OwnerClass.isSome && some c != Key.OwnerClass then
      match FindBestArchetype.loop W Key fuel none (some (c, cls)) with
      | .error e => .error e
      | .ok (some a) => .ok (some a)
      | .ok none => .ok (Key.GetOriginalTemplate W TemplateName)
    else .ok none
  | none => .ok none

/-- The name `CreateNewRecord` gives the new template (lines 101-110). -/
def CreateNewRecord.templateName (W : World) (Key : FComponentKey)
    (BestArchetype : UActorComponent) : FName :=
  match Key.FindSCSNode W with
  | some (SCS, SCSNode) =>
    match SCS.DefaultSceneRootNode with
    | some Default =>
      if SCSNode.Id == Default.Id &&
          some BestArchetype.Id == Default.ComponentTemplate.map (fun t => t.Id) then
        RootPrefix ++ FName.ToString BestArchetype.Name
      else BestArchetype.Name
    | none => BestArchetype.Name
  | none => BestArchetype.Name

/-- The function `UCSActorExtensions::CreateNewRecord` (lines 98-119): the state after
`NewObject` and the contents written into `*NewRecord`. -/
def CreateNewRecord (fuel : Nat) (W : World) (Handler : UInheritableComponentHandler)
    (Key : FComponentKey) : Except Err (World × FComponentOverrideRecord) :=
  match FindBestArchetype fuel W Handler.Outer Key NAME_None with
  | .error e => .error e
  | .ok none => .error .nullDeref
  | .ok (some BestArchetype) =>
    let NewComponentTemplateName := CreateNewRecord.templateName W Key BestArchetype
    let Outer := Handler.Outer
    let Flags := [EObjectFlags.RF_ArchetypeObject, EObjectFlags.RF_Public,
      EObjectFlags.RF_InheritableComponentTemplate]
    let (W1, NewComponentTemplate) :=
      NewObject W Outer BestArchetype.Class NewComponentTemplateName Flags BestArchetype
    .ok (W1, { ComponentKey := Key,
               ComponentClass := some NewComponentTemplate.Class,
               ComponentTemplate := some NewComponentTemplate })

/-- The inner loop of `GetComponentTemplate` (lines 64-75): the first node answering to the name
in the construction scripts of the Blueprint-generated chain, with the class that owns it. -/
def GetComponentTemplate.findOriginalTemplate (W : World) (ComponentName : FName) :
    Nat → Option (ClassId × UClass) → Except Err (Option (ClassId × USCS_Node))
  | 0, _ => .error .outOfFuel
  | fuel + 1, SCSClass =>
    match SCSClass with
    | none => .ok none
    | some (c, cls) =>
      match cls.SimpleConstructionScript.bind (fun SCS => SCS.FindSCSNode ComponentName) with
      | some Node => .ok (some (c, Node))
      | none =>
        GetComponentTemplate.findOriginalTemplate W ComponentName fuel (CastBPGC W cls.SuperClass)

/-- The line logged at line 94: category `LogUnrealSharp`, verbosity `Error`, and the format
string filled with `ComponentName.ToString()` and `Actor->GetName()`. -/
def notFoundLine (Actor : AActor) (ComponentName : FName) : FLogLine :=
  { Category := "LogUnrealSharp", Verbosity := "Error",
    Message := "Component " ++ FName.ToString ComponentName ++ " not found in actor " ++
      Actor.Name ++ ". Should not happen to DefaultComponents" }

/-- The default-initialised slot that `FScriptArrayHelper::AddValue` appends. -/
def FComponentOverrideRecord.default : FComponentOverrideRecord :=
  { ComponentClass := none, ComponentTemplate := none, ComponentKey := FComponentKey.empty }

/-- How one pass through the body of the outer loop ends: with a `return`, or by falling
through to line 91 in the given engine state. -/
inductive Flow where
  | Return (o : Outcome)
  | Next (W : World)
  deriving DecidableEq, Repr

/-- The body of the outer loop of `GetComponentTemplate` (lines 41-89) for the managed class
`c` (data `cls`).  `F` is the fuel handed to the nested loops; `Visited` lists the classes
examined before this one.  The editor-only lines 52-55 copy the handler pointer into the
Blueprint asset, which is no part of the embedded state.  Lines 82-84 append a
default-initialised slot to `Records` before `CreateNewRecord` runs and fills it. -/
def GetComponentTemplate.body (F : Nat) (ComponentName : FName) (W : World) (c : ClassId)
    (cls : UClass) (Visited : List ClassId) : Except Err Flow :=
  match cls.SimpleConstructionScript.bind (fun SCS => SCS.FindSCSNode ComponentName) with
  | some Node =>
    .ok (.Return { Ret := Node.ComponentTemplate, World := W, Log := [],
                   Visited := Visited ++ [c] })
  | none =>
    match GetInheritableComponentHandler W c cls true with
    | (W1, none) => .ok (.Next W1)
    | (W1, some Handler) =>
      let ComponentKey := Handler.FindKey ComponentName
      match Handler.GetOverridenComponentTemplate ComponentKey with
      | some ComponentTemplate =>
        .ok (.Return { Ret := some ComponentTemplate, World := W1, Log := [],
                       Visited := Visited ++ [c] })
      | none =>
        let cls1 : UClass := { cls with InheritableComponentHandler := some Handler }
        match GetComponentTemplate.findOriginalTemplate W1 ComponentName F (some (c, cls1)) with
        | .error e => .error e
        | .ok none => .ok (.Next W1)
        | .ok (some (Owner, OriginalTemplate)) =>
          let Slot : UInheritableComponentHandler :=
            { Handler with Records := Handler.Records ++ [FComponentOverrideRecord.default] }
          let W2 := W1.setHandler c cls Slot
          match CreateNewRecord F W2 Slot (FComponentKey.ofNode Owner OriginalTemplate) with
          | .error e => .error e
          | .ok (W3, NewRecord) =>
            let Filled : UInheritableComponentHandler :=
              { Handler with Records := Handler.Records ++ [NewRecord] }
            .ok (.Return { Ret := NewRecord.ComponentTemplate,
                           World := W3.setHandler c cls Filled, Log := [],
                           Visited := Visited ++ [c] })

/-- The outer loop of `GetComponentTemplate` (lines 39-95): `while (IsManagedType(CurrentClass))`,
then the error line and `return nullptr`. -/
def GetComponentTemplate.loop (F : Nat) (Actor : AActor) (ComponentName : FName) :
    Nat → World → Option ClassId → List ClassId → Except Err Outcome
  | 0, _, _, _ => .error .outOfFuel
  | fuel + 1, W, CurrentClass, Visited =>
    match IsManagedType W CurrentClass with
    | none =>
      .ok { Ret := none, World := W, Log := [notFoundLine Actor ComponentName],
            Visited := Visited }
    | some (c, cls) =>
      match GetComponentTemplate.body F ComponentName W c cls Visited with
      | .error e => .error e
      | .ok (.Return o) => .ok o
      | .ok (.Next W1) =>
        GetComponentTemplate.loop F Actor ComponentName fuel W1
          ((CastBPGC W1 cls.SuperClass).map (fun p => p.1)) (Visited ++ [c])

/-- The function `UCSActorExtensions::GetComponentTemplate` (lines 30-96). -/
def GetComponentTemplate (fuel : Nat) (W : World) (Actor : Option AActor) (ComponentName : FName) :
    Except Err Outcome :=
  if IsValid Actor then
    match Actor with
    | none => .ok { Ret := none, World := W, Log := [], Visited := [] }
    | some a =>
      match GetFirstManagedClass W fuel (some a.Class) with
      | .error e => .error e
      | .ok CurrentClass => GetComponentTemplate.loop fuel a ComponentName fuel W CurrentClass []
  else .ok { Ret := none, World := W, Log := [], Visited := [] }

/-! ## Vocabulary of the specification -/

/-- Walking `GetSuperClass` upward from `p` reaches null after at most `n` classes: the
super-class chain of `p` is finite and acyclic, of depth at most `n`. -/
def ChainEnds (W : World) : Nat → Option ClassId → Bool
  | _, none => true
  | 0, some c => (W.Classes[c]?).isNone
  | n + 1, some c =>
    match W.Classes[c]? with
    | none => true
    | some cls => ChainEnds W n cls.SuperClass

/-- The Blueprint-generated super-chain of `p`: `p` itself, then its super-classes, for as long
as they are Blueprint-generated classes (at most `n` of them). -/
def BlueprintChain (W : World) : Nat → Option ClassId → List ClassId
  | 0, _ => []
  | n + 1, p =>
    match CastBPGC W p with
    | none => []
    | some (c, cls) => c :: BlueprintChain W n cls.SuperClass

/-- The handler held by class `c`, if any. -/
def World.handlerOf (W : World) (c : ClassId) : Option UInheritableComponentHandler :=
  (W.Classes[c]?).bind (fun cls => cls.InheritableComponentHandler)

/-- The override records held by the handler of class `c` (none when it has no handler). -/
def World.recordsOf (W : World) (c : ClassId) : List FComponentOverrideRecord :=
  match W.handlerOf c with
  | some h => h.Records
  | none => []

/-- The number of override records over all handlers. -/
def World.totalRecords (W : World) : Nat :=
  (W.Classes.map (fun cls =>
    match cls.InheritableComponentHandler with
    | some h => h.Records.length
    | none => 0)).sum

/-- The node of the construction script of class `c` that answers to the name, if any. -/
def World.nodeNamed (W : World) (ComponentName : FName) (c : ClassId) : Option USCS_Node :=
  (W.Classes[c]?).bind (fun cls =>
    cls.SimpleConstructionScript.bind (fun SCS => SCS.FindSCSNode ComponentName))

/-- The override that the handler of class `c` holds for a key, if any. -/
def World.overrideAt (W : World) (Key : FComponentKey) (c : ClassId) : Option UActorComponent :=
  (W.handlerOf c).bind (fun h => h.GetOverridenComponentTemplate Key)

/-- What `FindBestArchetype` is specified to return, in the words of the specification: null
unless `Outer` is a Blueprint-generated class and the key has an owner other than `Outer`;
otherwise the override held for the key by the nearest class of the Blueprint-generated
super-chain that starts at `Outer` itself; otherwise the key's original template. -/
def BestArchetypeSpec (W : World) (n : Nat) (Outer : Option ClassId) (Key : FComponentKey)
    (TemplateName : FName) : Option UActorComponent :=
  if (CastBPGC W Outer).isSome ∧ Key.OwnerClass ≠ none ∧ Key.OwnerClass ≠ Outer then
    match (BlueprintChain W n Outer).findSome? (W.overrideAt Key) with
    | some t => some t
    | none => Key.GetOriginalTemplate W TemplateName
  else none

/-- The part of a class that no function of this file writes: super-class, kind and
construction script. -/
def UClass.frame (cls : UClass) :
    Option ClassId × EClassKind × Option USimpleConstructionScript :=
  (cls.SuperClass, cls.Kind, cls.SimpleConstructionScript)

/-- Two engine states with the same class hierarchy and construction scripts (they may differ
in the handlers). -/
def SameFrame (W W' : World) : Prop :=
  ∀ i : ClassId,
    Option.map UClass.frame (W'.Classes[i]?) = Option.map UClass.frame (W.Classes[i]?)

/-! ## Relations between engine states -/

/-- An engine state that differs from another at most by handlers created empty. -/
def Keep (W W1 : World) : Prop :=
  W1.NextObjectId = W.NextObjectId ∧
  W1.bEnableInheritableComponents = W.bEnableInheritableComponents ∧
  W1.Classes.length = W.Classes.length ∧
  ∀ i : ClassId, W1.Classes[i]? = W.Classes[i]? ∨
    ∃ cls, W.Classes[i]? = some cls ∧ cls.InheritableComponentHandler = none ∧
      W1.Classes[i]? =
        some { cls with InheritableComponentHandler := some { Outer := some i, Records := [] } }

/-- Every super-class chain of the engine state ends within `D` classes. -/
def Hall (W : World) (D : Nat) : Prop := ∀ p : Option ClassId, ChainEnds W D p = true

/-- The number of records a class holds. -/
def UClass.recordCount (cls : UClass) : Nat :=
  match cls.InheritableComponentHandler with
  | some h => h.Records.length
  | none => 0

/-- The outcome `o` differs from the state `W` by one record appended on class `c`. -/
def Appended (N : FName) (W : World) (o : Outcome) (c : ClassId) : Prop :=
  ∃ (W1 : World) (cls1 : UClass) (H : UInheritableComponentHandler)
    (NewRecord : FComponentOverrideRecord),
    Keep W W1 ∧ W1.Classes[c]? = some cls1 ∧ cls1.InheritableComponentHandler = some H ∧
    cls1.Kind = EClassKind.Managed ∧
    W1.nodeNamed N c = none ∧ H.GetOverridenComponentTemplate (H.FindKey N) = none ∧
    o.World.Classes = W1.Classes.set c
      { cls1 with
        InheritableComponentHandler := some { H with Records := H.Records ++ [NewRecord] } } ∧
    o.Ret = NewRecord.ComponentTemplate ∧
    (∃ t, NewRecord.ComponentTemplate = some t ∧ t.Archetype ≠ none) ∧
    o.Visited.getLast? = some c

/-- No handler of a managed class holds an override for the key its `FindKey` gives the name. -/
def NoOverride (N : FName) (W : World) : Prop :=
  ∀ (c : ClassId) (cls : UClass) (h : UInheritableComponentHandler),
    W.Classes[c]? = some cls → cls.Kind = EClassKind.Managed →
    cls.InheritableComponentHandler = some h →
    h.GetOverridenComponentTemplate (h.FindKey N) = none

/-- Every construction-script node has a template. -/
def NodesHaveTemplates (W : World) : Prop :=
  ∀ (c : ClassId) (cls : UClass) (SCS : USimpleConstructionScript) (n : USCS_Node),
    W.Classes[c]? = some cls → cls.SimpleConstructionScript = some SCS → n ∈ SCS.AllNodes →
    n.ComponentTemplate ≠ none

/-- Every construction-script node has a variable name and a valid GUID: its key is an SCS key. -/
def NodesHaveKeys (W : World) : Prop :=
  ∀ (c : ClassId) (cls : UClass) (SCS : USimpleConstructionScript) (n : USCS_Node),
    W.Classes[c]? = some cls → cls.SimpleConstructionScript = some SCS → n ∈ SCS.AllNodes →
    (FComponentKey.ofNode c n).IsSCSKey = true

/-- The outer of every handler is the class that holds it. -/
def OutersOwn (W : World) : Prop :=
  ∀ (c : ClassId) (cls : UClass) (h : UInheritableComponentHandler),
    W.Classes[c]? = some cls → cls.InheritableComponentHandler = some h → h.Outer = some c

/-! ## Example engine states -/

/-- The template of the `Mesh` component declared by the parent class. -/
def exTemplate : UActorComponent :=
  { Id := 100, Name := "Mesh_GEN_VARIABLE", Class := 7, Outer := some 1,
    Flags := [EObjectFlags.RF_ArchetypeObject, EObjectFlags.RF_Public], Archetype := none }

/-- The construction-script node of the `Mesh` component. -/
def exNode : USCS_Node :=
  { Id := 10, VariableName := "Mesh", VariableGuid := 42, ComponentTemplate := some exTemplate }

/-- Class 0: a native root class. -/
def exRoot : UClass :=
  { SuperClass := none, Kind := EClassKind.Native, SimpleConstructionScript := none,
    InheritableComponentHandler := none }

/-- Class 1: a managed class whose construction script declares `Mesh` as its scene root. -/
def exParent : UClass :=
  { SuperClass := some 0, Kind := EClassKind.Managed,
    SimpleConstructionScript := some { AllNodes := [exNode], DefaultSceneRootNode := some exNode },
    InheritableComponentHandler := none }

/-- Class 2: a managed class derived from class 1, with no construction script and no handler. -/
def exChild : UClass :=
  { SuperClass := some 1, Kind := EClassKind.Managed, SimpleConstructionScript := none,
    InheritableComponentHandler := none }

/-- The hierarchy root, parent, child with inheritable components enabled. -/
def exWorld : World :=
  { Classes := [exRoot, exParent, exChild], NextObjectId := 200,
    bEnableInheritableComponents := true }

/-- A valid actor of the child class. -/
def exActor : AActor := { Name := "Hero", Class := 2, bValid := true }

/-- A valid actor of the parent class. -/
def exParentActor : AActor := { Name := "Base", Class := 1, bValid := true }

/-- An actor that fails `IsValid`. -/
def exDeadActor : AActor := { Name := "Ghost", Class := 2, bValid := false }

/-- The template the child class gets for `Mesh` in `exWorld`. -/
def exNewTemplate : UActorComponent :=
  { Id := 200, Name := "ICH-Mesh_GEN_VARIABLE", Class := 7, Outer := some 2,
    Flags := [EObjectFlags.RF_ArchetypeObject, EObjectFlags.RF_Public,
      EObjectFlags.RF_InheritableComponentTemplate],
    Archetype := some 100 }

/-- The record the child class gets for `Mesh` in `exWorld`. -/
def exNewRecord : FComponentOverrideRecord :=
  { ComponentClass := some 7, ComponentTemplate := some exNewTemplate,
    ComponentKey := FComponentKey.ofNode 1 exNode }

/-- The child class once its handler holds the new record. -/
def exChildAfter : UClass :=
  { exChild with
    InheritableComponentHandler := some { Outer := some 2, Records := [exNewRecord] } }

/-- What `GetComponentTemplate` leaves behind for `exActor` and `Mesh` in `exWorld`. -/
def exOutcome : Outcome :=
  { Ret := some exNewTemplate,
    World := { Classes := [exRoot, exParent, exChildAfter], NextObjectId := 201,
               bEnableInheritableComponents := true },
    Log := [], Visited := [2] }

/-- Another component, used as an override template. -/
def exOtherTemplate : UActorComponent :=
  { Id := 150, Name := "Mesh", Class := 7, Outer := some 1, Flags := [], Archetype := some 100 }

/-- The parent class with a handler that holds an override record for `Mesh`. -/
def exParentOverridden : UClass :=
  { exParent with
    InheritableComponentHandler := some
      { Outer := some 1,
        Records := [{ ComponentClass := some 7, ComponentTemplate := some exOtherTemplate,
                      ComponentKey := FComponentKey.ofNode 1 exNode }] } }

/-- The hierarchy in which the parent class holds an override record for its own `Mesh`. -/
def exWorldOverridden : World :=
  { Classes := [exRoot, exParentOverridden, exChild], NextObjectId := 200,
    bEnableInheritableComponents := true }

/-- A record for the inherited `Mesh` whose template is missing. -/
def exStaleRecord : FComponentOverrideRecord :=
  { ComponentClass := some 7, ComponentTemplate := none,
    ComponentKey := FComponentKey.ofNode 1 exNode }

/-- The child class with a handler that holds the record without template. -/
def exChildStale : UClass :=
  { exChild with
    InheritableComponentHandler := some { Outer := some 2, Records := [exStaleRecord] } }

/-- The hierarchy in which the child's handler holds a record for `Mesh` without template. -/
def exWorldStale : World :=
  { Classes := [exRoot, exParent, exChildStale], NextObjectId := 200,
    bEnableInheritableComponents := true }

/-- The parent class with a `Mesh` node that has no template. -/
def exParentNoTemplate : UClass :=
  { exParent with
    SimpleConstructionScript := some
      { AllNodes := [{ exNode with ComponentTemplate := none }], DefaultSceneRootNode := none } }

/-- The child class with an empty handler. -/
def exChildEmptyHandler : UClass :=
  { exChild with InheritableComponentHandler := some { Outer := some 2, Records := [] } }

/-- The hierarchy in which the inherited `Mesh` node has no template and the child has an
empty handler. -/
def exWorldNoTemplate : World :=
  { Classes := [exRoot, exParentNoTemplate, exChildEmptyHandler], NextObjectId := 200,
    bEnableInheritableComponents := true }

/-- The parent class with a `Mesh` node whose GUID is the invalid all-zero GUID. -/
def exParentNoGuid : UClass :=
  { exParent with
    SimpleConstructionScript := some
      { AllNodes := [{ exNode with VariableGuid := 0 }], DefaultSceneRootNode := none } }

/-- The hierarchy in which the inherited `Mesh` node has a template but no valid GUID. -/
def exWorldNoGuid : World :=
  { Classes := [exRoot, exParentNoGuid, exChildEmptyHandler], NextObjectId := 200,
    bEnableInheritableComponents := true }

/-- Two calls in a row: the identity of the template each returns and the number of records
the handler of class `c` holds after each. -/
def twoCalls (fuel : Nat) (W : World) (Actor : Option AActor) (N : FName) (c : ClassId) :
    Except Err (Option Nat × Nat × Option Nat × Nat) :=
  match GetComponentTemplate fuel W Actor N with
  | .error e => .error e
  | .ok o1 =>
    match GetComponentTemplate fuel o1.World Actor N with
    | .error e => .error e
    | .ok o2 =>
      .ok (o1.Ret.map (fun t => t.Id), (o1.World.recordsOf c).length,
           o2.Ret.map (fun t => t.Id), (o2.World.recordsOf c).length)

/-- The child class after one call for `Mesh` in `exWorldStale`: the record without template,
then the record appended by that call. -/
def exChildStaleOnce : UClass :=
  { exChild with
    InheritableComponentHandler :=
      some { Outer := some 2, Records := [exStaleRecord, exNewRecord] } }

/-- The engine state one call for `Mesh` leaves behind in `exWorldStale`. -/
def exWorldStaleOnce : World :=
  { Classes := [exRoot, exParent, exChildStaleOnce], NextObjectId := 201,
    bEnableInheritableComponents := true }

/-! ## Lemmas -/

theorem GetFirstManagedClass_managed (W : World) :
    ∀ (fuel : Nat) (p : Option ClassId) (C : ClassId),
      GetFirstManagedClass W fuel p = .ok (some C) →
      ∃ cls, W.Classes[C]? = some cls ∧ cls.Kind = EClassKind.Managed := by
  intro fuel
  induction fuel with
  | zero => intro p C h; simp [GetFirstManagedClass] at h
  | succ n ih =>
    intro p C h
    unfold GetFirstManagedClass at h
    cases p with
    | none => simp at h
    | some c =>
      simp only at h
      cases hc : W.Classes[c]? with
      | none => simp [hc] at h
      | some cls =>
        simp only [hc] at h
        by_cases hk : cls.Kind = EClassKind.Managed
        · simp only [hk, if_true] at h
          injection h with h
          injection h with h
          subst h
          exact ⟨cls, hc, hk⟩
        · simp only [hk, if_false] at h
          exact ih _ _ h

theorem IsManagedType_of_managed (W : World) (C : ClassId) (cls : UClass)
    (h : W.Classes[C]? = some cls) (hk : cls.Kind = EClassKind.Managed) :
    IsManagedType W (some C) = some (C, cls) := by
  simp [IsManagedType, h, hk]

theorem CastBPGC_eq_some {W : World} {p : Option ClassId} {c : ClassId} {cls : UClass}
    (h : CastBPGC W p = some (c, cls)) :
    p = some c ∧ W.Classes[c]? = some cls ∧ cls.Kind ≠ EClassKind.Native := by
  unfold CastBPGC at h
  cases p with
  | none => simp at h
  | some x =>
    simp only at h
    cases hx : W.Classes[x]? with
    | none => simp [hx] at h
    | some k =>
      simp only [hx] at h
      by_cases hk : k.Kind = EClassKind.Native
      · simp [hk] at h
      · simp only [hk, if_false, Option.some.injEq, Prod.mk.injEq] at h
        obtain ⟨h1, h2⟩ := h
        subst h1; subst h2
        exact ⟨rfl, hx, hk⟩

theorem CastBPGC_of {W : World} {c : ClassId} {cls : UClass}
    (h : W.Classes[c]? = some cls) (hk : cls.Kind ≠ EClassKind.Native) :
    CastBPGC W (some c) = some (c, cls) := by
  simp [CastBPGC, h, hk]

theorem IsManagedType_eq_some {W : World} {p : Option ClassId} {c : ClassId} {cls : UClass}
    (h : IsManagedType W p = some (c, cls)) :
    p = some c ∧ W.Classes[c]? = some cls ∧ cls.Kind = EClassKind.Managed := by
  unfold IsManagedType at h
  cases p with
  | none => simp at h
  | some x =>
    simp only at h
    cases hx : W.Classes[x]? with
    | none => simp [hx] at h
    | some k =>
      simp only [hx] at h
      by_cases hk : k.Kind = EClassKind.Managed
      · simp only [hk, if_true, Option.some.injEq, Prod.mk.injEq] at h
        obtain ⟨h1, h2⟩ := h
        subst h1; subst h2
        exact ⟨rfl, hx, hk⟩
      · simp [hk] at h

theorem ChainEnds_none (W : World) (n : Nat) : ChainEnds W n none = true := by
  cases n <;> rfl

theorem ChainEnds_step {W : World} {d : Nat} {c : ClassId} {cls : UClass}
    (h : ChainEnds W d (some c) = true) (hc : W.Classes[c]? = some cls) :
    ∃ n, d = n + 1 ∧ ChainEnds W n cls.SuperClass = true := by
  cases d with
  | zero => simp [ChainEnds, hc] at h
  | succ n =>
    refine ⟨n, rfl, ?_⟩
    simpa [ChainEnds, hc] using h

theorem ChainEnds_succ (W : World) : ∀ (n : Nat) (p : Option ClassId),
    ChainEnds W n p = true → ChainEnds W (n + 1) p = true := by
  intro n
  induction n with
  | zero =>
    intro p h
    cases p with
    | none => rfl
    | some c =>
      cases hc : W.Classes[c]? with
      | none => simp [ChainEnds, hc]
      | some cls => simp [ChainEnds, hc] at h
  | succ n ih =>
    intro p h
    cases p with
    | none => rfl
    | some c =>
      cases hc : W.Classes[c]? with
      | none => simp [ChainEnds, hc]
      | some cls =>
        have h1 : ChainEnds W n cls.SuperClass = true := by simpa [ChainEnds, hc] using h
        have := ih _ h1
        simpa [ChainEnds, hc] using this

theorem ChainEnds_mono (W : World) {n m : Nat} (hnm : n ≤ m) (p : Option ClassId)
    (h : ChainEnds W n p = true) : ChainEnds W m p = true := by
  induction hnm with
  | refl => exact h
  | step _ ih => exact ChainEnds_succ W _ p ih

theorem SameFrame.frame_refl (W : World) : SameFrame W W := fun _ => rfl

theorem SameFrame.frame_trans {W₁ W₂ W₃ : World} (h₁ : SameFrame W₁ W₂) (h₂ : SameFrame W₂ W₃) :
    SameFrame W₁ W₃ := fun i => (h₂ i).trans (h₁ i)

theorem SameFrame.symm {W₁ W₂ : World} (h : SameFrame W₁ W₂) : SameFrame W₂ W₁ :=
  fun i => (h i).symm

theorem SameFrame.lookup {W W' : World} (h : SameFrame W W') {i : ClassId} {cls : UClass}
    (hc : W.Classes[i]? = some cls) :
    ∃ cls', W'.Classes[i]? = some cls' ∧ cls'.SuperClass = cls.SuperClass ∧
      cls'.Kind = cls.Kind ∧ cls'.SimpleConstructionScript = cls.SimpleConstructionScript := by
  have := h i
  rw [hc] at this
  cases hc' : W'.Classes[i]? with
  | none => simp [hc'] at this
  | some cls' =>
    simp only [hc', Option.map_some', Option.some.injEq, UClass.frame, Prod.mk.injEq] at this
    exact ⟨cls', rfl, this.1, this.2.1, this.2.2⟩

theorem SameFrame.lookup_none {W W' : World} (h : SameFrame W W') {i : ClassId}
    (hc : W.Classes[i]? = none) : W'.Classes[i]? = none := by
  have := h i
  rw [hc] at this
  cases hc' : W'.Classes[i]? with
  | none => rfl
  | some cls' => simp [hc'] at this

theorem setHandler_lookup (W : World) (c : ClassId) (cls : UClass)
    (h : UInheritableComponentHandler) (i : ClassId) :
    (W.setHandler c cls h).Classes[i]? =
      if c = i then (if c < W.Classes.length then
        some { cls with InheritableComponentHandler := some h } else none)
      else W.Classes[i]? := by
  simp [World.setHandler, List.getElem?_set]

theorem setHandler_lookup_self {W : World} {c : ClassId} {cls0 : UClass} (cls : UClass)
    (h : UInheritableComponentHandler) (hc : W.Classes[c]? = some cls0) :
    (W.setHandler c cls h).Classes[c]? =
      some { cls with InheritableComponentHandler := some h } := by
  have hlt : c < W.Classes.length := by
    by_contra hn
    rw [List.getElem?_eq_none (Nat.le_of_not_lt hn)] at hc
    cases hc
  simp [setHandler_lookup, hlt]

theorem setHandler_lookup_ne (W : World) {c i : ClassId} (cls : UClass)
    (h : UInheritableComponentHandler) (hne : c ≠ i) :
    (W.setHandler c cls h).Classes[i]? = W.Classes[i]? := by
  simp [setHandler_lookup, hne]

theorem SameFrame.setHandler {W : World} {c : ClassId} {cls0 cls : UClass}
    (h : UInheritableComponentHandler) (hc : W.Classes[c]? = some cls0)
    (hf : cls.frame = cls0.frame) : SameFrame W (W.setHandler c cls h) := by
  intro i
  by_cases hi : c = i
  · subst hi
    rw [setHandler_lookup_self cls h hc, hc]
    simpa [UClass.frame] using hf
  · rw [setHandler_lookup_ne W cls h hi]

theorem SameFrame.chainEnds_eq {W W' : World} (h : SameFrame W W') :
    ∀ (n : Nat) (p : Option ClassId), ChainEnds W' n p = ChainEnds W n p := by
  intro n
  induction n with
  | zero =>
    intro p
    cases p with
    | none => rfl
    | some c =>
      cases hc : W.Classes[c]? with
      | none => simp [ChainEnds, hc, h.lookup_none hc]
      | some cls =>
        obtain ⟨cls', hc', _⟩ := h.lookup hc
        simp [ChainEnds, hc, hc']
  | succ n ih =>
    intro p
    cases p with
    | none => rfl
    | some c =>
      cases hc : W.Classes[c]? with
      | none => simp [ChainEnds, hc, h.lookup_none hc]
      | some cls =>
        obtain ⟨cls', hc', hs, _, _⟩ := h.lookup hc
        simp [ChainEnds, hc, hc', hs, ih]

theorem overrideAt_of_lookup {W : World} {c : ClassId} {cls : UClass} (Key : FComponentKey)
    (hc : W.Classes[c]? = some cls) :
    W.overrideAt Key c =
      cls.InheritableComponentHandler.bind (fun h => h.GetOverridenComponentTemplate Key) := by
  simp only [World.overrideAt, World.handlerOf, hc, Option.some_bind]

/-- The loop of `FindBestArchetype` returns the override of the nearest class of the chain. -/
theorem FindBestArchetype_loop_eq (W : World) (Key : FComponentKey) :
    ∀ (n fuel : Nat) (p : Option ClassId), ChainEnds W n p = true → n < fuel →
      FindBestArchetype.loop W Key fuel none (CastBPGC W p) =
        .ok ((BlueprintChain W n p).findSome? (W.overrideAt Key)) := by
  intro n
  induction n with
  | zero =>
    intro fuel p hp hf
    obtain ⟨f, rfl⟩ : ∃ f, fuel = f + 1 := ⟨fuel - 1, by omega⟩
    cases hcast : CastBPGC W p with
    | none => simp [FindBestArchetype.loop, BlueprintChain]
    | some pr =>
      obtain ⟨c, cls⟩ := pr
      obtain ⟨rfl, hc, _⟩ := CastBPGC_eq_some hcast
      simp [ChainEnds, hc] at hp
  | succ m ih =>
    intro fuel p hp hf
    obtain ⟨f, rfl⟩ : ∃ f, fuel = f + 1 := ⟨fuel - 1, by omega⟩
    cases hcast : CastBPGC W p with
    | none => simp [FindBestArchetype.loop, BlueprintChain, hcast]
    | some pr =>
      obtain ⟨c, cls⟩ := pr
      obtain ⟨rfl, hc, _⟩ := CastBPGC_eq_some hcast
      obtain ⟨m', hm', hsup⟩ := ChainEnds_step hp hc
      have hmm : m' = m := by omega
      subst hmm
      have hov := overrideAt_of_lookup Key hc
      simp only [FindBestArchetype.loop, BlueprintChain, hcast, List.findSome?_cons]
      rw [hov]
      cases hH : cls.InheritableComponentHandler with
      | none => simpa using ih f cls.SuperClass hsup (by omega)
      | some h =>
        simp only [Option.some_bind]
        cases hO : h.GetOverridenComponentTemplate Key with
        | some t =>
          obtain ⟨f', rfl⟩ : ∃ f', f = f' + 1 := ⟨f - 1, by omega⟩
          simp [FindBestArchetype.loop]
        | none => simpa using ih f cls.SuperClass hsup (by omega)

theorem FindBestArchetype_eq_spec (W : World) (n fuel : Nat) (Outer : Option ClassId)
    (Key : FComponentKey) (TemplateName : FName)
    (hfin : ChainEnds W n Outer = true) (hfuel : n < fuel) :
    FindBestArchetype fuel W Outer Key TemplateName =
      .ok (BestArchetypeSpec W n Outer Key TemplateName) := by
  unfold FindBestArchetype BestArchetypeSpec
  cases hcast : CastBPGC W Outer with
  | none => simp
  | some pr =>
    obtain ⟨c, cls⟩ := pr
    obtain ⟨rfl, hc, _⟩ := CastBPGC_eq_some hcast
    have hloop := FindBestArchetype_loop_eq W Key n fuel (some c) hfin hfuel
    rw [hcast] at hloop
    by_cases hg : Key.OwnerClass.isSome = true ∧ Key.OwnerClass ≠ some c
    · have hg1 : (Key.OwnerClass.isSome && some c != Key.OwnerClass) = true := by
        simp only [Bool.and_eq_true, bne_iff_ne, ne_eq]
        exact ⟨hg.1, fun h => hg.2 h.symm⟩
      have hg2 : (some (c, cls)).isSome = true ∧ Key.OwnerClass ≠ none ∧ Key.OwnerClass ≠ some c := by
        refine ⟨rfl, ?_, hg.2⟩
        intro h; rw [h] at hg; simp at hg
      rw [if_pos hg2]
      simp only [hg1, if_true, hloop]
      cases (BlueprintChain W n (some c)).findSome? (W.overrideAt Key) <;> rfl
    · have hg1 : (Key.OwnerClass.isSome && some c != Key.OwnerClass) = false := by
        rw [Bool.eq_false_iff]
        intro h
        simp only [Bool.and_eq_true, bne_iff_ne, ne_eq] at h
        exact hg ⟨h.1, fun h' => h.2 h'.symm⟩
      have hg2 : ¬ ((some (c, cls)).isSome = true ∧ Key.OwnerClass ≠ none ∧ Key.OwnerClass ≠ some c) := by
        intro h
        apply hg
        refine ⟨?_, h.2.2⟩
        cases hk : Key.OwnerClass with
        | none => exact absurd hk h.2.1
        | some _ => rfl
      rw [if_neg hg2]
      simp [hg1]

theorem Keep.keep_refl (W : World) : Keep W W := ⟨rfl, rfl, rfl, fun _ => Or.inl rfl⟩

theorem Keep.keep_trans {W₁ W₂ W₃ : World} (h₁ : Keep W₁ W₂) (h₂ : Keep W₂ W₃) : Keep W₁ W₃ := by
  obtain ⟨a1, b1, c1, d1⟩ := h₁
  obtain ⟨a2, b2, c2, d2⟩ := h₂
  refine ⟨a2.trans a1, b2.trans b1, c2.trans c1, fun i => ?_⟩
  rcases d2 i with h2 | ⟨cls2, h2, hn2, h2'⟩
  · rcases d1 i with h1 | ⟨cls1, h1, hn1, h1'⟩
    · exact Or.inl (h2.trans h1)
    · exact Or.inr ⟨cls1, h1, hn1, h2.trans h1'⟩
  · rcases d1 i with h1 | ⟨cls1, h1, hn1, h1'⟩
    · exact Or.inr ⟨cls2, h1 ▸ h2, hn2, h2'⟩
    · rw [h1'] at h2
      injection h2 with h2
      subst h2
      simp at hn2

theorem Keep.toFrame {W W1 : World} (h : Keep W W1) : SameFrame W W1 := by
  intro i
  rcases h.2.2.2 i with h1 | ⟨cls, h0, _, h1⟩
  · rw [h1]
  · rw [h1, h0]; rfl

theorem length_of_lookup {W : World} {c : ClassId} {cls : UClass}
    (hc : W.Classes[c]? = some cls) : c < W.Classes.length := by
  by_contra hn
  rw [List.getElem?_eq_none (Nat.le_of_not_lt hn)] at hc
  cases hc

theorem Keep.setHandler_empty {W : World} {c : ClassId} {cls : UClass}
    (hc : W.Classes[c]? = some cls) (hn : cls.InheritableComponentHandler = none) :
    Keep W (W.setHandler c cls { Outer := some c, Records := [] }) := by
  refine ⟨rfl, rfl, by simp [World.setHandler], fun i => ?_⟩
  by_cases hi : c = i
  · subst hi
    exact Or.inr ⟨cls, hc, hn, setHandler_lookup_self cls _ hc⟩
  · exact Or.inl (setHandler_lookup_ne W cls _ hi)

/-- The three ways `GetInheritableComponentHandler(true)` can go. -/
theorem GetInheritableComponentHandler_cases (W : World) (c : ClassId) (cls : UClass) :
    (W.bEnableInheritableComponents = false ∧
      GetInheritableComponentHandler W c cls true = (W, none)) ∨
    (W.bEnableInheritableComponents = true ∧ ∃ h, cls.InheritableComponentHandler = some h ∧
      GetInheritableComponentHandler W c cls true = (W, some h)) ∨
    (W.bEnableInheritableComponents = true ∧ cls.InheritableComponentHandler = none ∧
      GetInheritableComponentHandler W c cls true =
        (W.setHandler c cls { Outer := some c, Records := [] },
         some { Outer := some c, Records := [] })) := by
  unfold GetInheritableComponentHandler
  cases hE : W.bEnableInheritableComponents with
  | false => simp
  | true =>
    cases hH : cls.InheritableComponentHandler with
    | none => simp
    | some h => simp

/-- What `GetInheritableComponentHandler(true)` leaves behind on class `c`. -/
theorem GetInheritableComponentHandler_spec {W : World} {c : ClassId} {cls : UClass}
    (hc : W.Classes[c]? = some cls) {W1 : World} {oh : Option UInheritableComponentHandler}
    (hG : GetInheritableComponentHandler W c cls true = (W1, oh)) :
    Keep W W1 ∧
    (oh = none → W.bEnableInheritableComponents = false ∧ W1 = W) ∧
    (∀ H, oh = some H →
      W1.Classes[c]? = some { cls with InheritableComponentHandler := some H } ∧
      (cls.InheritableComponentHandler = some H ∨
        (cls.InheritableComponentHandler = none ∧ H = { Outer := some c, Records := [] }))) := by
  rcases GetInheritableComponentHandler_cases W c cls with ⟨hE, h⟩ | ⟨_, H, hH, h⟩ | ⟨_, hn, h⟩
  · rw [h] at hG
    injection hG with h1 h2
    subst h1; subst h2
    exact ⟨Keep.keep_refl _, fun _ => ⟨hE, rfl⟩, fun H hH => by cases hH⟩
  · rw [h] at hG
    injection hG with h1 h2
    subst h1; subst h2
    refine ⟨Keep.keep_refl _, (fun h => by cases h), fun H' hH' => ?_⟩
    injection hH' with hH'
    subst hH'
    refine ⟨?_, Or.inl hH⟩
    rw [hc]
    congr 1
    cases cls
    simp only at hH
    simp [hH]
  · rw [h] at hG
    injection hG with h1 h2
    subst h1; subst h2
    refine ⟨Keep.setHandler_empty hc hn, (fun h => by cases h), fun H' hH' => ?_⟩
    injection hH' with hH'
    subst hH'
    exact ⟨setHandler_lookup_self cls _ hc, Or.inr ⟨hn, rfl⟩⟩

theorem nodeNamed_of_lookup {W : World} {c : ClassId} {cls : UClass} (N : FName)
    (hc : W.Classes[c]? = some cls) :
    W.nodeNamed N c = cls.SimpleConstructionScript.bind (fun SCS => SCS.FindSCSNode N) := by
  simp only [World.nodeNamed, hc, Option.some_bind]

/-- Every way one pass through the body of the outer loop can end. -/
theorem body_cases (F : Nat) (N : FName) {W : World} {c : ClassId} {cls : UClass}
    (vis : List ClassId) (hc : W.Classes[c]? = some cls) :
    (∃ Node, W.nodeNamed N c = some Node ∧
      GetComponentTemplate.body F N W c cls vis =
        .ok (.Return { Ret := Node.ComponentTemplate, World := W, Log := [],
                       Visited := vis ++ [c] })) ∨
    (W.nodeNamed N c = none ∧ ∃ W1, Keep W W1 ∧
      ((W.bEnableInheritableComponents = false ∧ W1 = W ∧
          GetComponentTemplate.body F N W c cls vis = .ok (.Next W1)) ∨
       (∃ H, W1.Classes[c]? = some { cls with InheritableComponentHandler := some H } ∧
          (cls.InheritableComponentHandler = some H ∨
            (cls.InheritableComponentHandler = none ∧ H = { Outer := some c, Records := [] })) ∧
          ((∃ t, H.GetOverridenComponentTemplate (H.FindKey N) = some t ∧
              GetComponentTemplate.body F N W c cls vis =
                .ok (.Return { Ret := some t, World := W1, Log := [], Visited := vis ++ [c] })) ∨
           (H.GetOverridenComponentTemplate (H.FindKey N) = none ∧
             ((∃ e, GetComponentTemplate.findOriginalTemplate W1 N F
                  (some (c, { cls with InheritableComponentHandler := some H })) = .error e ∧
                GetComponentTemplate.body F N W c cls vis = .error e) ∨
              (GetComponentTemplate.findOriginalTemplate W1 N F
                  (some (c, { cls with InheritableComponentHandler := some H })) = .ok none ∧
                GetComponentTemplate.body F N W c cls vis = .ok (.Next W1)) ∨
              (∃ Owner Orig, GetComponentTemplate.findOriginalTemplate W1 N F
                  (some (c, { cls with InheritableComponentHandler := some H })) =
                    .ok (some (Owner, Orig)) ∧
                ((∃ e, CreateNewRecord F
                      (W1.setHandler c cls
                        { H with Records := H.Records ++ [FComponentOverrideRecord.default] })
                      { H with Records := H.Records ++ [FComponentOverrideRecord.default] }
                      (FComponentKey.ofNode Owner Orig) = .error e ∧
                    GetComponentTemplate.body F N W c cls vis = .error e) ∨
                 (∃ W3 NewRecord, CreateNewRecord F
                      (W1.setHandler c cls
                        { H with Records := H.Records ++ [FComponentOverrideRecord.default] })
                      { H with Records := H.Records ++ [FComponentOverrideRecord.default] }
                      (FComponentKey.ofNode Owner Orig) = .ok (W3, NewRecord) ∧
                    GetComponentTemplate.body F N W c cls vis =
                      .ok (.Return { Ret := NewRecord.ComponentTemplate,
                                     World := W3.setHandler c cls
                                       { H with Records := H.Records ++ [NewRecord] },
                                     Log := [], Visited := vis ++ [c] })))))))))) := by
  rw [nodeNamed_of_lookup N hc]
  unfold GetComponentTemplate.body
  cases hn : cls.SimpleConstructionScript.bind (fun SCS => SCS.FindSCSNode N) with
  | some Node => exact Or.inl ⟨Node, rfl, rfl⟩
  | none =>
    right
    refine ⟨rfl, ?_⟩
    rcases hG : GetInheritableComponentHandler W c cls true with ⟨W1, oh⟩
    obtain ⟨hK, hnone, hsome⟩ := GetInheritableComponentHandler_spec hc hG
    refine ⟨W1, hK, ?_⟩
    cases oh with
    | none =>
      obtain ⟨hE, hW⟩ := hnone rfl
      exact Or.inl ⟨hE, hW, rfl⟩
    | some H =>
      obtain ⟨h1, h2⟩ := hsome H rfl
      right
      refine ⟨H, h1, h2, ?_⟩
      simp only []
      cases hO : H.GetOverridenComponentTemplate (H.FindKey N) with
      | some t => exact Or.inl ⟨t, rfl, rfl⟩
      | none =>
        right
        refine ⟨rfl, ?_⟩
        simp only []
        cases hF : GetComponentTemplate.findOriginalTemplate W1 N F
            (some (c, { cls with InheritableComponentHandler := some H })) with
        | error e => exact Or.inl ⟨e, rfl, rfl⟩
        | ok r =>
          cases r with
          | none => exact Or.inr (Or.inl ⟨rfl, rfl⟩)
          | some pr =>
            obtain ⟨Owner, Orig⟩ := pr
            right; right
            refine ⟨Owner, Orig, rfl, ?_⟩
            simp only []
            cases hR : CreateNewRecord F
                (W1.setHandler c cls
                  { H with Records := H.Records ++ [FComponentOverrideRecord.default] })
                { H with Records := H.Records ++ [FComponentOverrideRecord.default] }
                (FComponentKey.ofNode Owner Orig) with
            | error e => exact Or.inl ⟨e, rfl, rfl⟩
            | ok pr =>
              obtain ⟨W3, NewRecord⟩ := pr
              exact Or.inr ⟨W3, NewRecord, rfl, rfl⟩

/-- The inner loop of `GetComponentTemplate` finds the node of the nearest class of the chain. -/
theorem findOriginalTemplate_eq (W : World) (N : FName) :
    ∀ (n fuel : Nat) (p : Option ClassId), ChainEnds W n p = true → n < fuel →
      GetComponentTemplate.findOriginalTemplate W N fuel (CastBPGC W p) =
        .ok ((BlueprintChain W n p).findSome?
          (fun c => (W.nodeNamed N c).map (fun nd => (c, nd)))) := by
  intro n
  induction n with
  | zero =>
    intro fuel p hp hf
    obtain ⟨f, rfl⟩ : ∃ f, fuel = f + 1 := ⟨fuel - 1, by omega⟩
    cases hcast : CastBPGC W p with
    | none => simp [GetComponentTemplate.findOriginalTemplate, BlueprintChain]
    | some pr =>
      obtain ⟨c, cls⟩ := pr
      obtain ⟨rfl, hc, _⟩ := CastBPGC_eq_some hcast
      simp [ChainEnds, hc] at hp
  | succ m ih =>
    intro fuel p hp hf
    obtain ⟨f, rfl⟩ : ∃ f, fuel = f + 1 := ⟨fuel - 1, by omega⟩
    cases hcast : CastBPGC W p with
    | none => simp [GetComponentTemplate.findOriginalTemplate, BlueprintChain, hcast]
    | some pr =>
      obtain ⟨c, cls⟩ := pr
      obtain ⟨rfl, hc, _⟩ := CastBPGC_eq_some hcast
      obtain ⟨m', hm', hsup⟩ := ChainEnds_step hp hc
      have hmm : m' = m := by omega
      subst hmm
      have hnn := nodeNamed_of_lookup N hc
      simp only [GetComponentTemplate.findOriginalTemplate, BlueprintChain, hcast,
        List.findSome?_cons]
      rw [hnn]
      cases hN : cls.SimpleConstructionScript.bind (fun SCS => SCS.FindSCSNode N) with
      | some nd => simp
      | none => simpa using ih f cls.SuperClass hsup (by omega)

/-- With enough fuel `CreateNewRecord` fails only on a null archetype. -/
theorem CreateNewRecord_eq (W : World) (n F : Nat) (Handler : UInheritableComponentHandler)
    (Key : FComponentKey) (hfin : ChainEnds W n Handler.Outer = true) (hF : n < F) :
    (BestArchetypeSpec W n Handler.Outer Key NAME_None = none ∧
      CreateNewRecord F W Handler Key = .error .nullDeref) ∨
    (∃ best r, BestArchetypeSpec W n Handler.Outer Key NAME_None = some best ∧
      CreateNewRecord F W Handler Key = .ok r) := by
  unfold CreateNewRecord
  rw [FindBestArchetype_eq_spec W n F Handler.Outer Key NAME_None hfin hF]
  cases hB : BestArchetypeSpec W n Handler.Outer Key NAME_None with
  | none => exact Or.inl ⟨rfl, rfl⟩
  | some best => exact Or.inr ⟨best, _, rfl, rfl⟩

theorem Hall.of_bounded {W : World} {D : Nat}
    (h : ∀ c, c < W.Classes.length → ChainEnds W D (some c) = true) : Hall W D := by
  intro p
  cases p with
  | none => exact ChainEnds_none W D
  | some c =>
    by_cases hc : c < W.Classes.length
    · exact h c hc
    · have : W.Classes[c]? = none := List.getElem?_eq_none (Nat.le_of_not_lt hc)
      cases D <;> simp [ChainEnds, this]

theorem Hall.transfer {W W' : World} {D : Nat} (h : Hall W D) (hs : SameFrame W W') :
    Hall W' D := fun p => by rw [hs.chainEnds_eq]; exact h p

theorem SameFrame.setHandler_of {W : World} {c : ClassId} {cls : UClass}
    {H : UInheritableComponentHandler} (X : UInheritableComponentHandler)
    (hc : W.Classes[c]? = some { cls with InheritableComponentHandler := some H }) :
    SameFrame W (W.setHandler c cls X) :=
  SameFrame.setHandler X hc rfl

/-- With enough fuel, one pass through the body does not run out of fuel. -/
theorem body_no_outOfFuel {F D : Nat} {N : FName} {W : World} {c : ClassId} {cls : UClass}
    {vis : List ClassId} (hc : W.Classes[c]? = some cls) (hk : cls.Kind = EClassKind.Managed)
    (hall : Hall W D) (hF : D < F) :
    GetComponentTemplate.body F N W c cls vis ≠ .error .outOfFuel := by
  intro habs
  rcases body_cases F N vis hc with
    ⟨Node, hn, hb⟩ | ⟨hn, W1, hK, ⟨hE, hW, hb⟩ | ⟨H, hc1, hH, ⟨t, hO, hb⟩ |
      ⟨hO, ⟨e, hF', hb⟩ | ⟨hF', hb⟩ | ⟨Owner, Orig, hF', ⟨e, hR, hb⟩ | ⟨W3, rec, hR, hb⟩⟩⟩⟩⟩
  · rw [hb] at habs; cases habs
  · rw [hb] at habs; cases habs
  · rw [hb] at habs; cases habs
  · have hall1 : Hall W1 D := hall.transfer hK.toFrame
    have hcast : CastBPGC W1 (some c) =
        some (c, { cls with InheritableComponentHandler := some H }) :=
      CastBPGC_of hc1 (by simp [hk])
    have := findOriginalTemplate_eq W1 N D F (some c) (hall1 _) hF
    rw [hcast, hF'] at this
    cases this
  · rw [hb] at habs; cases habs
  · have hall1 : Hall W1 D := hall.transfer hK.toFrame
    have hall2 := hall1.transfer
      (SameFrame.setHandler_of
        { H with Records := H.Records ++ [FComponentOverrideRecord.default] } hc1)
    rw [hb] at habs
    injection habs with habs
    subst habs
    rcases CreateNewRecord_eq _ D F
        { H with Records := H.Records ++ [FComponentOverrideRecord.default] }
        (FComponentKey.ofNode Owner Orig) (hall2 _) hF with ⟨_, h⟩ | ⟨_, _, _, h⟩
    · rw [h] at hR; cases hR
    · rw [h] at hR; cases hR
  · rw [hb] at habs; cases habs

theorem body_next_keep {F : Nat} {N : FName} {W W1 : World} {c : ClassId} {cls : UClass}
    {vis : List ClassId} (hc : W.Classes[c]? = some cls)
    (h : GetComponentTemplate.body F N W c cls vis = .ok (.Next W1)) : Keep W W1 := by
  rcases body_cases F N vis hc with
    ⟨Node, hn, hb⟩ | ⟨hn, W1', hK, ⟨hE, hW, hb⟩ | ⟨H, hc1, hH, ⟨t, hO, hb⟩ |
      ⟨hO, ⟨e, hF', hb⟩ | ⟨hF', hb⟩ | ⟨Owner, Orig, hF', ⟨e, hR, hb⟩ | ⟨W3, rec, hR, hb⟩⟩⟩⟩⟩
  all_goals rw [hb] at h
  all_goals first
    | (injection h with h; injection h with h; subst h; exact hK)
    | (injection h with h; cases h)
    | cases h

theorem body_return_visited {F : Nat} {N : FName} {W : World} {c : ClassId} {cls : UClass}
    {vis : List ClassId} {o : Outcome} (hc : W.Classes[c]? = some cls)
    (h : GetComponentTemplate.body F N W c cls vis = .ok (.Return o)) :
    o.Visited = vis ++ [c] ∧ o.Log = [] := by
  rcases body_cases F N vis hc with
    ⟨Node, hn, hb⟩ | ⟨hn, W1', hK, ⟨hE, hW, hb⟩ | ⟨H, hc1, hH, ⟨t, hO, hb⟩ |
      ⟨hO, ⟨e, hF', hb⟩ | ⟨hF', hb⟩ | ⟨Owner, Orig, hF', ⟨e, hR, hb⟩ | ⟨W3, rec, hR, hb⟩⟩⟩⟩⟩
  all_goals rw [hb] at h
  all_goals first
    | (injection h with h; injection h with h; subst h; exact ⟨rfl, rfl⟩)
    | (injection h with h; cases h)
    | cases h

theorem loop_succ (F : Nat) (a : AActor) (N : FName) (fuel : Nat) (W : World)
    (cur : Option ClassId) (vis : List ClassId) :
    GetComponentTemplate.loop F a N (fuel + 1) W cur vis =
      (match IsManagedType W cur with
       | none => .ok { Ret := none, World := W, Log := [notFoundLine a N], Visited := vis }
       | some (c, cls) =>
         match GetComponentTemplate.body F N W c cls vis with
         | .error e => .error e
         | .ok (.Return o) => .ok o
         | .ok (.Next W1) =>
           GetComponentTemplate.loop F a N fuel W1
             ((CastBPGC W1 cls.SuperClass).map (fun p => p.1)) (vis ++ [c])) := by
  rfl

/-- The class the outer loop moves to lies on the super-class chain. -/
theorem ChainEnds_next {W W1 : World} (hs : SameFrame W W1) {n : Nat} {sup : Option ClassId}
    (h : ChainEnds W n sup = true) :
    ChainEnds W1 n ((CastBPGC W1 sup).map (fun p => p.1)) = true := by
  cases hcast : CastBPGC W1 sup with
  | none => exact ChainEnds_none _ _
  | some pr =>
    obtain ⟨c, cls⟩ := pr
    obtain ⟨rfl, _, _⟩ := CastBPGC_eq_some hcast
    rw [hs.chainEnds_eq]
    exact h

/-- With enough fuel the outer loop does not run out of fuel. -/
theorem loop_no_outOfFuel (F D : Nat) (a : AActor) (N : FName) (hF : D < F) :
    ∀ (fuel : Nat) (W : World) (cur : Option ClassId) (vis : List ClassId) (d : Nat),
      Hall W D → ChainEnds W d cur = true → d < fuel →
      GetComponentTemplate.loop F a N fuel W cur vis ≠ .error .outOfFuel := by
  intro fuel
  induction fuel with
  | zero => intro W cur vis d _ _ hd; omega
  | succ f ih =>
    intro W cur vis d hall hd hfuel
    rw [loop_succ]
    cases hM : IsManagedType W cur with
    | none => simp
    | some pr =>
      obtain ⟨c, cls⟩ := pr
      obtain ⟨rfl, hc, hk⟩ := IsManagedType_eq_some hM
      obtain ⟨n, rfl, hsup⟩ := ChainEnds_step hd hc
      simp only []
      cases hB : GetComponentTemplate.body F N W c cls vis with
      | error e =>
        intro habs
        injection habs with habs
        subst habs
        exact body_no_outOfFuel hc hk hall hF hB
      | ok fl =>
        cases fl with
        | Return o => simp
        | Next W1 =>
          have hK := body_next_keep hc hB
          exact ih W1 _ _ n (hall.transfer hK.toFrame)
            (ChainEnds_next hK.toFrame hsup) (by omega)

/-- The classes the outer loop examines: managed classes, each at most once, no more of them
than the chain is deep. -/
theorem loop_visited (F : Nat) (a : AActor) (N : FName) :
    ∀ (fuel : Nat) (W : World) (cur : Option ClassId) (vis : List ClassId) (o : Outcome),
      GetComponentTemplate.loop F a N fuel W cur vis = .ok o →
      ∃ l, o.Visited = vis ++ l ∧
        (∀ v ∈ l, ∃ cls, W.Classes[v]? = some cls ∧ cls.Kind = EClassKind.Managed) ∧
        (∀ d, ChainEnds W d cur = true →
          l.length ≤ d ∧ l.Nodup ∧ ∀ v ∈ l, ChainEnds W d (some v) = true) := by
  intro fuel
  induction fuel with
  | zero => intro W cur vis o h; simp [GetComponentTemplate.loop] at h
  | succ f ih =>
    intro W cur vis o h
    rw [loop_succ] at h
    cases hM : IsManagedType W cur with
    | none =>
      simp only [hM] at h
      injection h with h
      subst h
      exact ⟨[], by simp, by simp, by simp⟩
    | some pr =>
      obtain ⟨c, cls⟩ := pr
      obtain ⟨rfl, hc, hk⟩ := IsManagedType_eq_some hM
      simp only [hM] at h
      have hone : ∀ d, ChainEnds W d (some c) = true → 1 ≤ d := by
        intro d hd
        obtain ⟨n, rfl, _⟩ := ChainEnds_step hd hc
        omega
      cases hB : GetComponentTemplate.body F N W c cls vis with
      | error e => simp [hB] at h
      | ok fl =>
        cases fl with
        | Return o' =>
          simp only [hB] at h
          injection h with h
          subst h
          refine ⟨[c], (body_return_visited hc hB).1, ?_, ?_⟩
          · intro v hv
            simp only [List.mem_singleton] at hv
            subst hv
            exact ⟨cls, hc, hk⟩
          · intro d hd
            refine ⟨by simpa using hone d hd, by simp, ?_⟩
            intro v hv
            simp only [List.mem_singleton] at hv
            subst hv
            exact hd
        | Next W1 =>
          simp only [hB] at h
          have hK := body_next_keep hc hB
          have hs := hK.toFrame
          obtain ⟨l', hl', hman, hrest⟩ := ih W1 _ _ o h
          have hup : ∀ n, ChainEnds W n cls.SuperClass = true →
              l'.length ≤ n ∧ l'.Nodup ∧ ∀ v ∈ l', ChainEnds W n (some v) = true := by
            intro n hn
            obtain ⟨h1, h2, h3⟩ := hrest n (ChainEnds_next hs hn)
            refine ⟨h1, h2, fun v hv => ?_⟩
            rw [← hs.chainEnds_eq]
            exact h3 v hv
          have hnot : c ∈ l' → ∀ k, ChainEnds W k (some c) = true → False := by
            intro hmem k
            induction k with
            | zero => intro hk0; simp [ChainEnds, hc] at hk0
            | succ j ihj =>
              intro hk1
              obtain ⟨n, hn, hsup⟩ := ChainEnds_step hk1 hc
              have hnj : n = j := by omega
              subst hnj
              exact ihj ((hup n hsup).2.2 c hmem)
          refine ⟨c :: l', by simp [hl'], ?_, ?_⟩
          · intro v hv
            rcases List.mem_cons.mp hv with rfl | hv
            · exact ⟨cls, hc, hk⟩
            · obtain ⟨cls1, hc1, hk1⟩ := hman v hv
              obtain ⟨cls0, hc0, _, hk0, _⟩ := hs.symm.lookup hc1
              exact ⟨cls0, hc0, hk0.trans hk1⟩
          · intro d hd
            obtain ⟨n, rfl, hsup⟩ := ChainEnds_step hd hc
            obtain ⟨h1, h2, h3⟩ := hup n hsup
            refine ⟨by simpa using h1, ?_, ?_⟩
            · rw [List.nodup_cons]
              exact ⟨fun hmem => hnot hmem _ hd, h2⟩
            · intro v hv
              rcases List.mem_cons.mp hv with rfl | hv
              · exact hd
              · exact ChainEnds_succ W n _ (h3 v hv)

/-- The walk of `GetFirstManagedClass` ends within the depth of the chain, on a class of the
chain. -/
theorem GetFirstManagedClass_total (W : World) :
    ∀ (d fuel : Nat) (p : Option ClassId), ChainEnds W d p = true → d < fuel →
      ∃ r, GetFirstManagedClass W fuel p = .ok r := by
  intro d
  induction d with
  | zero =>
    intro fuel p hp hf
    obtain ⟨f, rfl⟩ : ∃ f, fuel = f + 1 := ⟨fuel - 1, by omega⟩
    cases p with
    | none => exact ⟨none, rfl⟩
    | some c =>
      cases hc : W.Classes[c]? with
      | none => exact ⟨none, by simp [GetFirstManagedClass, hc]⟩
      | some cls => simp [ChainEnds, hc] at hp
  | succ n ih =>
    intro fuel p hp hf
    obtain ⟨f, rfl⟩ : ∃ f, fuel = f + 1 := ⟨fuel - 1, by omega⟩
    cases p with
    | none => exact ⟨none, rfl⟩
    | some c =>
      cases hc : W.Classes[c]? with
      | none => exact ⟨none, by simp [GetFirstManagedClass, hc]⟩
      | some cls =>
        obtain ⟨m, hm, hsup⟩ := ChainEnds_step hp hc
        have hmn : m = n := by omega
        subst hmn
        by_cases hk : cls.Kind = EClassKind.Managed
        · exact ⟨some c, by simp [GetFirstManagedClass, hc, hk]⟩
        · obtain ⟨r, hr⟩ := ih f cls.SuperClass hsup (by omega)
          exact ⟨r, by simp [GetFirstManagedClass, hc, hk, hr]⟩

theorem GetFirstManagedClass_chain (W : World) :
    ∀ (fuel : Nat) (p r : Option ClassId), GetFirstManagedClass W fuel p = .ok r →
      ∀ d, ChainEnds W d p = true → ChainEnds W d r = true := by
  intro fuel
  induction fuel with
  | zero => intro p r h; simp [GetFirstManagedClass] at h
  | succ f ih =>
    intro p r h d hd
    cases p with
    | none =>
      simp [GetFirstManagedClass] at h
      subst h
      exact hd
    | some c =>
      cases hc : W.Classes[c]? with
      | none =>
        simp [GetFirstManagedClass, hc] at h
        subst h
        exact ChainEnds_none W d
      | some cls =>
        by_cases hk : cls.Kind = EClassKind.Managed
        · simp [GetFirstManagedClass, hc, hk] at h
          subst h
          exact hd
        · simp only [GetFirstManagedClass, hc, hk, if_false] at h
          obtain ⟨n, rfl, hsup⟩ := ChainEnds_step hd hc
          exact ChainEnds_succ W n r (ih _ _ h n hsup)

theorem GetComponentTemplate_no_outOfFuel (W : World) (D fuel : Nat)
    (hfin : ∀ c, c < W.Classes.length → ChainEnds W D (some c) = true) (hfuel : D < fuel)
    (Actor : Option AActor) (N : FName) :
    GetComponentTemplate fuel W Actor N ≠ .error .outOfFuel := by
  have hall : Hall W D := Hall.of_bounded hfin
  unfold GetComponentTemplate
  cases hv : IsValid Actor with
  | false => simp
  | true =>
    cases Actor with
    | none => simp
    | some a =>
      obtain ⟨r, hr⟩ := GetFirstManagedClass_total W D fuel (some a.Class) (hall _) hfuel
      simp only [if_true, hr]
      exact loop_no_outOfFuel fuel D a N hfuel fuel W r [] D hall (hall _) hfuel

theorem GetComponentTemplate_visited {fuel : Nat} {W : World} {a : AActor} {N : FName}
    {o : Outcome} {d : Nat} (h : GetComponentTemplate fuel W (some a) N = .ok o)
    (hd : ChainEnds W d (some a.Class) = true) :
    o.Visited.Nodup ∧ o.Visited.length ≤ d ∧
      ∀ c ∈ o.Visited, ∃ cls, W.Classes[c]? = some cls ∧ cls.Kind = EClassKind.Managed := by
  unfold GetComponentTemplate at h
  cases hv : IsValid (some a) with
  | false =>
    simp only [hv] at h
    injection h with h
    subst h
    simp
  | true =>
    simp only [hv, if_true] at h
    cases hG : GetFirstManagedClass W fuel (some a.Class) with
    | error e => simp [hG] at h
    | ok r =>
      simp only [hG] at h
      obtain ⟨l, hl, hman, hrest⟩ := loop_visited fuel a N fuel W r [] o h
      obtain ⟨h1, h2, _⟩ := hrest d (GetFirstManagedClass_chain W fuel _ r hG d hd)
      simp only [List.nil_append] at hl
      rw [hl]
      exact ⟨h2, h1, hman⟩

theorem totalRecords_eq (W : World) :
    W.totalRecords = (W.Classes.map UClass.recordCount).sum := rfl

theorem handlerOf_of_lookup {W : World} {c : ClassId} {cls : UClass}
    (hc : W.Classes[c]? = some cls) : W.handlerOf c = cls.InheritableComponentHandler := by
  simp [World.handlerOf, hc]

theorem Keep.handlerOf {W W1 : World} (h : Keep W W1) (i : ClassId) :
    W1.handlerOf i = W.handlerOf i ∨
      (W.handlerOf i = none ∧ W1.handlerOf i = some { Outer := some i, Records := [] }) := by
  rcases h.2.2.2 i with h1 | ⟨cls, h0, hn, h1⟩
  · left; simp [World.handlerOf, h1]
  · right
    rw [handlerOf_of_lookup h0, handlerOf_of_lookup h1]
    exact ⟨hn, rfl⟩

theorem Keep.recordsOf {W W1 : World} (h : Keep W W1) (i : ClassId) :
    W1.recordsOf i = W.recordsOf i := by
  rcases h.handlerOf i with h1 | ⟨h0, h1⟩
  · simp [World.recordsOf, h1]
  · simp [World.recordsOf, h0, h1]

theorem Keep.totalRecords {W W1 : World} (h : Keep W W1) :
    W1.totalRecords = W.totalRecords := by
  rw [totalRecords_eq, totalRecords_eq]
  congr 1
  apply List.ext_getElem?
  intro i
  rw [List.getElem?_map, List.getElem?_map]
  rcases h.2.2.2 i with h1 | ⟨cls, h0, hn, h1⟩
  · rw [h1]
  · rw [h1, h0]
    simp [UClass.recordCount, hn]

theorem sum_map_set {α : Type} (f : α → Nat) :
    ∀ (l : List α) (i : Nat) (x y : α), l[i]? = some y →
      ((l.set i x).map f).sum + f y = (l.map f).sum + f x := by
  intro l
  induction l with
  | nil => intro i x y h; simp at h
  | cons a t ih =>
    intro i x y h
    cases i with
    | zero =>
      simp at h
      subst h
      simp [List.set]
      omega
    | succ j =>
      simp at h
      have := ih j x y h
      simp only [List.set, List.map_cons, List.sum_cons]
      omega

/-- What `NewObject` gives: the class table is untouched, the object has the requested name,
class, outer, flags and archetype, and its identity is that of the object of that name in the
outer when there is one, else the next fresh identity. -/
theorem NewObject_spec {W W3 : World} {Outer : Option ClassId} {Class : Nat} {Name : FName}
    {Flags : List EObjectFlags} {Template t : UActorComponent}
    (h : NewObject W Outer Class Name Flags Template = (W3, t)) :
    W3.Classes = W.Classes ∧
    t.Name = Name ∧ t.Class = Class ∧ t.Outer = Outer ∧ t.Flags = Flags ∧
    t.Archetype = some Template.Id ∧
    (W.FindObject Outer Name = none →
      t.Id = W.NextObjectId ∧ W3.NextObjectId = W.NextObjectId + 1) ∧
    (∀ old, W.FindObject Outer Name = some old →
      t.Id = old.Id ∧ W3.NextObjectId = W.NextObjectId) := by
  unfold NewObject at h
  cases hf : W.FindObject Outer Name with
  | none =>
    simp only [hf, Prod.mk.injEq] at h
    obtain ⟨rfl, rfl⟩ := h
    simp
  | some old =>
    simp only [hf, Prod.mk.injEq] at h
    obtain ⟨rfl, rfl⟩ := h
    simp

theorem CreateNewRecord_ok {F : Nat} {W W3 : World} {Handler : UInheritableComponentHandler}
    {Key : FComponentKey} {NewRecord : FComponentOverrideRecord}
    (h : CreateNewRecord F W Handler Key = .ok (W3, NewRecord)) :
    ∃ best t, FindBestArchetype F W Handler.Outer Key NAME_None = .ok (some best) ∧
      NewObject W Handler.Outer best.Class (CreateNewRecord.templateName W Key best)
        [EObjectFlags.RF_ArchetypeObject, EObjectFlags.RF_Public,
          EObjectFlags.RF_InheritableComponentTemplate] best = (W3, t) ∧
      NewRecord =
        { ComponentKey := Key, ComponentClass := some t.Class, ComponentTemplate := some t } := by
  unfold CreateNewRecord at h
  cases hB : FindBestArchetype F W Handler.Outer Key NAME_None with
  | error e => simp [hB] at h
  | ok r =>
    cases r with
    | none => simp [hB] at h
    | some best =>
      simp only [hB] at h
      rcases hN : NewObject W Handler.Outer best.Class
          (CreateNewRecord.templateName W Key best)
          [EObjectFlags.RF_ArchetypeObject, EObjectFlags.RF_Public,
            EObjectFlags.RF_InheritableComponentTemplate] best with ⟨W4, t⟩
      simp only [hN, Except.ok.injEq, Prod.mk.injEq] at h
      obtain ⟨rfl, rfl⟩ := h
      exact ⟨best, t, rfl, hN, rfl⟩

theorem Appended.of_keep {N : FName} {W W' : World} {o : Outcome} {c : ClassId}
    (hK : Keep W W') (h : Appended N W' o c) : Appended N W o c := by
  obtain ⟨W1, cls1, H, r, h1, h2⟩ := h
  exact ⟨W1, cls1, H, r, hK.keep_trans h1, h2⟩

theorem SameFrame.nodeNamed_eq {W W' : World} (h : SameFrame W W') (N : FName) (c : ClassId) :
    W'.nodeNamed N c = W.nodeNamed N c := by
  cases hc : W.Classes[c]? with
  | none => simp [World.nodeNamed, hc, h.lookup_none hc]
  | some cls =>
    obtain ⟨cls', hc', _, _, hs⟩ := h.lookup hc
    simp [World.nodeNamed, hc, hc', hs]

/-- What a `return` from the body leaves behind. -/
theorem body_return_frame {F : Nat} {N : FName} {W : World} {c : ClassId} {cls : UClass}
    {vis : List ClassId} {o : Outcome} (hc : W.Classes[c]? = some cls)
    (hk : cls.Kind = EClassKind.Managed)
    (h : GetComponentTemplate.body F N W c cls vis = .ok (.Return o)) :
    (∃ W1, Keep W W1 ∧ o.World = W1) ∨ Appended N W o c := by
  rcases body_cases F N vis hc with
    ⟨Node, hn, hb⟩ | ⟨hn, W1, hK, ⟨hE, hW, hb⟩ | ⟨H, hc1, hH, ⟨t, hO, hb⟩ |
      ⟨hO, ⟨e, hF', hb⟩ | ⟨hF', hb⟩ | ⟨Owner, Orig, hF', ⟨e, hR, hb⟩ | ⟨W3, rec, hR, hb⟩⟩⟩⟩⟩
  all_goals rw [hb] at h
  · injection h with h; injection h with h; subst h
    exact Or.inl ⟨W, Keep.keep_refl W, rfl⟩
  · injection h with h; cases h
  · injection h with h; injection h with h; subst h
    exact Or.inl ⟨W1, hK, rfl⟩
  · cases h
  · injection h with h; cases h
  · cases h
  · injection h with h; injection h with h; subst h
    right
    obtain ⟨best, t, _, hN, hrec⟩ := CreateNewRecord_ok hR
    obtain ⟨hcl, _, _, _, _, harch, _⟩ := NewObject_spec hN
    refine ⟨W1, _, H, rec, hK, hc1, rfl, hk, ?_, hO, ?_, rfl, ?_, by simp⟩
    rotate_left 2
    · subst hrec; exact ⟨t, rfl, by simp [harch]⟩
    · rw [hK.toFrame.nodeNamed_eq]; exact hn
    · simp [World.setHandler, hcl, List.set_set]

/-- What one run of the outer loop leaves behind. -/
theorem loop_frame (F : Nat) (a : AActor) (N : FName) :
    ∀ (fuel : Nat) (W : World) (cur : Option ClassId) (vis : List ClassId) (o : Outcome),
      GetComponentTemplate.loop F a N fuel W cur vis = .ok o →
      (∃ W1, Keep W W1 ∧ o.World = W1) ∨ ∃ c, Appended N W o c := by
  intro fuel
  induction fuel with
  | zero => intro W cur vis o h; simp [GetComponentTemplate.loop] at h
  | succ f ih =>
    intro W cur vis o h
    rw [loop_succ] at h
    cases hM : IsManagedType W cur with
    | none =>
      simp only [hM] at h
      injection h with h
      subst h
      exact Or.inl ⟨W, Keep.keep_refl W, rfl⟩
    | some pr =>
      obtain ⟨c, cls⟩ := pr
      obtain ⟨rfl, hc, hk⟩ := IsManagedType_eq_some hM
      simp only [hM] at h
      cases hB : GetComponentTemplate.body F N W c cls vis with
      | error e => simp [hB] at h
      | ok fl =>
        cases fl with
        | Return o' =>
          simp only [hB] at h
          injection h with h
          subst h
          rcases body_return_frame hc hk hB with h1 | h1
          · exact Or.inl h1
          · exact Or.inr ⟨c, h1⟩
        | Next W1 =>
          simp only [hB] at h
          have hK := body_next_keep hc hB
          rcases ih W1 _ _ o h with ⟨W2, hK2, h2⟩ | ⟨c', h2⟩
          · exact Or.inl ⟨W2, hK.keep_trans hK2, h2⟩
          · exact Or.inr ⟨c', h2.of_keep hK⟩

theorem GetComponentTemplate_frame {fuel : Nat} {W : World} {Actor : Option AActor} {N : FName}
    {o : Outcome} (h : GetComponentTemplate fuel W Actor N = .ok o) :
    (∃ W1, Keep W W1 ∧ o.World = W1) ∨ ∃ c, Appended N W o c := by
  unfold GetComponentTemplate at h
  cases hv : IsValid Actor with
  | false =>
    simp only [hv] at h
    injection h with h
    subst h
    exact Or.inl ⟨W, Keep.keep_refl W, rfl⟩
  | true =>
    simp only [hv, if_true] at h
    cases Actor with
    | none =>
      injection h with h
      subst h
      exact Or.inl ⟨W, Keep.keep_refl W, rfl⟩
    | some a =>
      simp only at h
      cases hG : GetFirstManagedClass W fuel (some a.Class) with
      | error e => simp [hG] at h
      | ok r =>
        simp only [hG] at h
        exact loop_frame fuel a N fuel W r [] o h

/-- The records of an outcome with one record appended on class `c`. -/
theorem Appended.records {N : FName} {W : World} {o : Outcome} {c : ClassId}
    (h : Appended N W o c) :
    o.World.totalRecords = W.totalRecords + 1 ∧
    (∃ r t, o.World.recordsOf c = W.recordsOf c ++ [r] ∧ o.Ret = some t ∧
      r.ComponentTemplate = some t ∧ t.Archetype ≠ none) ∧
    (∀ i, i ≠ c → o.World.recordsOf i = W.recordsOf i) ∧
    W.nodeNamed N c = none ∧
    (∀ h, W.handlerOf c = some h → h.GetOverridenComponentTemplate (h.FindKey N) = none) ∧
    o.Visited.getLast? = some c := by
  obtain ⟨W1, cls1, H, r, hK, hc1, hH, hk, hn, hO, hW, hret, ⟨t, ht, hta⟩, hlast⟩ := h
  have hlt := length_of_lookup hc1
  have hoc : o.World.Classes[c]? = some { cls1 with
      InheritableComponentHandler := some { H with Records := H.Records ++ [r] } } := by
    rw [hW, List.getElem?_set]; simp [hlt]
  have hoi : ∀ i, i ≠ c → o.World.Classes[i]? = W1.Classes[i]? := by
    intro i hi
    rw [hW, List.getElem?_set]
    simp [Ne.symm hi]
  refine ⟨?_, ⟨r, t, ?_, hret.trans ht, ht, hta⟩, ?_, ?_, ?_, hlast⟩
  · rw [← hK.totalRecords, totalRecords_eq, totalRecords_eq, hW]
    have := sum_map_set UClass.recordCount W1.Classes c
      { cls1 with
        InheritableComponentHandler := some { H with Records := H.Records ++ [r] } } cls1 hc1
    simp only [UClass.recordCount, hH, List.length_append, List.length_singleton] at this ⊢
    omega
  · rw [← hK.recordsOf]
    simp [World.recordsOf, handlerOf_of_lookup hoc, handlerOf_of_lookup hc1, hH]
  · intro i hi
    rw [← hK.recordsOf]
    simp [World.recordsOf, World.handlerOf, hoi i hi]
  · rw [← hK.toFrame.nodeNamed_eq]; exact hn
  · intro h hh
    rcases hK.handlerOf c with h1 | ⟨h0, _⟩
    · rw [handlerOf_of_lookup hc1, hH, hh] at h1
      injection h1 with h1
      subst h1
      exact hO
    · rw [hh] at h0; cases h0

theorem SameFrame.castBPGC {W W' : World} (h : SameFrame W W') (p : Option ClassId) :
    (CastBPGC W' p).map (fun q => (q.1, q.2.SuperClass)) =
      (CastBPGC W p).map (fun q => (q.1, q.2.SuperClass)) := by
  cases p with
  | none => rfl
  | some c =>
    cases hc : W.Classes[c]? with
    | none => simp [CastBPGC, hc, h.lookup_none hc]
    | some cls =>
      obtain ⟨cls', hc', hs, hk, _⟩ := h.lookup hc
      by_cases hn : cls.Kind = EClassKind.Native
      · simp [CastBPGC, hc, hc', hk, hn]
      · simp [CastBPGC, hc, hc', hk, hn, hs]

theorem SameFrame.blueprintChain_eq {W W' : World} (h : SameFrame W W') :
    ∀ (n : Nat) (p : Option ClassId), BlueprintChain W' n p = BlueprintChain W n p := by
  intro n
  induction n with
  | zero => intro p; rfl
  | succ n ih =>
    intro p
    have hcast := h.castBPGC p
    cases h1 : CastBPGC W p with
    | none =>
      cases h2 : CastBPGC W' p with
      | none => simp [BlueprintChain, h1, h2]
      | some q => simp [h1, h2] at hcast
    | some q =>
      cases h2 : CastBPGC W' p with
      | none => simp [h1, h2] at hcast
      | some q' =>
        simp only [h1, h2, Option.map_some', Option.some.injEq, Prod.mk.injEq] at hcast
        simp [BlueprintChain, h1, h2, hcast.1, hcast.2, ih]

theorem BlueprintChain_cast (W : World) (n : Nat) (p : Option ClassId) :
    BlueprintChain W n ((CastBPGC W p).map (fun q => q.1)) = BlueprintChain W n p := by
  cases n with
  | zero => rfl
  | succ n =>
    cases hcast : CastBPGC W p with
    | none =>
      have h0 : CastBPGC W none = none := rfl
      simp only [Option.map_none', BlueprintChain, hcast, h0]
    | some q =>
      obtain ⟨c, cls⟩ := q
      obtain ⟨rfl, _, _⟩ := CastBPGC_eq_some hcast
      simp

theorem NoOverride.under_keep {N : FName} {W W1 : World} (h : NoOverride N W) (hK : Keep W W1) :
    NoOverride N W1 := by
  intro c cls1 H hc1 hk hH
  rcases hK.2.2.2 c with h1 | ⟨cls, h0, hn, h1⟩
  · rw [h1] at hc1
    exact h c cls1 H hc1 hk hH
  · rw [h1] at hc1
    injection hc1 with hc1
    subst hc1
    simp only [Option.some.injEq] at hH
    subst hH
    rfl

/-- The outer loop on a chain without a node of the name and without an override. -/
theorem loop_not_found (F : Nat) (a : AActor) (N : FName) :
    ∀ (fuel : Nat) (W : World) (cur : Option ClassId) (vis : List ClassId) (d : Nat),
      ChainEnds W d cur = true → d < fuel → d < F →
      (∀ c ∈ BlueprintChain W d cur, W.nodeNamed N c = none) → NoOverride N W →
      ∃ o, GetComponentTemplate.loop F a N fuel W cur vis = .ok o ∧ o.Ret = none ∧
        o.Log = [notFoundLine a N] ∧ Keep W o.World := by
  intro fuel
  induction fuel with
  | zero => intro W cur vis d _ hd; omega
  | succ f ih =>
    intro W cur vis d hd hfuel hF hnode hov
    rw [loop_succ]
    cases hM : IsManagedType W cur with
    | none => exact ⟨_, rfl, rfl, rfl, Keep.keep_refl W⟩
    | some pr =>
      obtain ⟨c, cls⟩ := pr
      obtain ⟨rfl, hc, hk⟩ := IsManagedType_eq_some hM
      obtain ⟨n, rfl, hsup⟩ := ChainEnds_step hd hc
      have hcast : CastBPGC W (some c) = some (c, cls) := CastBPGC_of hc (by simp [hk])
      have hchain : BlueprintChain W (n + 1) (some c) = c :: BlueprintChain W n cls.SuperClass := by
        simp [BlueprintChain, hcast]
      have hcn : W.nodeNamed N c = none := hnode c (by simp [hchain])
      have hrec : ∀ W1, Keep W W1 →
          ∃ o, GetComponentTemplate.loop F a N f W1
                  ((CastBPGC W1 cls.SuperClass).map (fun p => p.1)) (vis ++ [c]) = .ok o ∧
            o.Ret = none ∧ o.Log = [notFoundLine a N] ∧ Keep W o.World := by
        intro W1 hK
        have hs := hK.toFrame
        have hnode1 : ∀ x ∈ BlueprintChain W1 n ((CastBPGC W1 cls.SuperClass).map (fun p => p.1)),
            W1.nodeNamed N x = none := by
          intro x hx
          rw [BlueprintChain_cast, hs.blueprintChain_eq] at hx
          rw [hs.nodeNamed_eq]
          exact hnode x (by simp [hchain, hx])
        obtain ⟨o, ho, h1, h2, h3⟩ := ih W1 _ (vis ++ [c]) n (ChainEnds_next hs hsup)
          (by omega) (by omega) hnode1 (hov.under_keep hK)
        exact ⟨o, ho, h1, h2, hK.keep_trans h3⟩
      have hfind : ∀ W1 H, Keep W W1 →
          W1.Classes[c]? = some { cls with InheritableComponentHandler := some H } →
          GetComponentTemplate.findOriginalTemplate W1 N F
            (some (c, { cls with InheritableComponentHandler := some H })) = .ok none := by
        intro W1 H hK hc1
        have hs := hK.toFrame
        have hcast1 : CastBPGC W1 (some c) =
            some (c, { cls with InheritableComponentHandler := some H }) :=
          CastBPGC_of hc1 (by simp [hk])
        have := findOriginalTemplate_eq W1 N (n + 1) F (some c)
          (by rw [hs.chainEnds_eq]; exact hd) hF
        rw [hcast1] at this
        rw [this]
        congr 1
        rw [List.findSome?_eq_none_iff]
        intro x hx
        rw [hs.blueprintChain_eq] at hx
        rw [hs.nodeNamed_eq, hnode x hx]
        rfl
      simp only []
      rcases body_cases F N vis hc with
        ⟨Node, hn, hb⟩ | ⟨hn, W1, hK, ⟨hE, hW, hb⟩ | ⟨H, hc1, hH, ⟨t, hO, hb⟩ |
          ⟨hO, ⟨e, hF', hb⟩ | ⟨hF', hb⟩ | ⟨Owner, Orig, hF', ⟨e, hR, hb⟩ | ⟨W3, rec, hR, hb⟩⟩⟩⟩⟩
      · rw [hcn] at hn; cases hn
      · rw [hb]; exact hrec W1 hK
      · have := (hov.under_keep hK) c _ H hc1 hk rfl
        rw [this] at hO; cases hO
      · rw [hfind W1 H hK hc1] at hF'; cases hF'
      · rw [hb]; exact hrec W1 hK
      · rw [hfind W1 H hK hc1] at hF'; cases hF'
      · rw [hfind W1 H hK hc1] at hF'; cases hF'

theorem GetComponentTemplate_not_found (fuel D : Nat) (W : World) (a : AActor) (N : FName)
    (first : Option ClassId)
    (hv : IsValid (some a) = true)
    (hfin : ChainEnds W D (some a.Class) = true) (hfuel : D < fuel)
    (hfirst : GetFirstManagedClass W fuel (some a.Class) = .ok first)
    (hnode : ∀ c ∈ BlueprintChain W D first, W.nodeNamed N c = none)
    (hov : ∀ (c : ClassId) (cls : UClass) (h : UInheritableComponentHandler),
      W.Classes[c]? = some cls → cls.Kind = EClassKind.Managed →
      cls.InheritableComponentHandler = some h →
      h.GetOverridenComponentTemplate (h.FindKey N) = none) :
    ∃ o, GetComponentTemplate fuel W (some a) N = .ok o ∧ o.Ret = none ∧
      o.Log = [notFoundLine a N] ∧ (∀ c, o.World.recordsOf c = W.recordsOf c) ∧
      o.World.totalRecords = W.totalRecords := by
  obtain ⟨o, ho, h1, h2, h3⟩ := loop_not_found fuel a N fuel W first [] D
    (GetFirstManagedClass_chain W fuel _ first hfirst D hfin) hfuel hfuel hnode hov
  refine ⟨o, ?_, h1, h2, fun c => h3.recordsOf c, h3.totalRecords⟩
  simp only [GetComponentTemplate, hv, if_true, hfirst]
  exact ho

theorem SameFrame.castBPGC_frame {W W' : World} (h : SameFrame W W') (p : Option ClassId) :
    (CastBPGC W' p).map (fun q => (q.1, q.2.frame)) =
      (CastBPGC W p).map (fun q => (q.1, q.2.frame)) := by
  cases p with
  | none => rfl
  | some c =>
    cases hc : W.Classes[c]? with
    | none => simp [CastBPGC, hc, h.lookup_none hc]
    | some cls =>
      obtain ⟨cls', hc', hs, hk, hscs⟩ := h.lookup hc
      by_cases hn : cls.Kind = EClassKind.Native
      · simp [CastBPGC, hc, hc', hk, hn]
      · simp [CastBPGC, hc, hc', hk, hn, hs, UClass.frame, hscs]

/-- The loop of `FindBestArchetype` reads the hierarchy and the overrides held for the key. -/
theorem FindBestArchetype_loop_congr {W W' : World} (Key : FComponentKey) (hs : SameFrame W W')
    (hov : ∀ i, W'.overrideAt Key i = W.overrideAt Key i) :
    ∀ (fuel : Nat) (Closest : Option UActorComponent) (p : Option ClassId),
      FindBestArchetype.loop W' Key fuel Closest (CastBPGC W' p) =
        FindBestArchetype.loop W Key fuel Closest (CastBPGC W p) := by
  intro fuel
  induction fuel with
  | zero => intro Closest p; rfl
  | succ f ih =>
    intro Closest p
    cases Closest with
    | some t => simp [FindBestArchetype.loop]
    | none =>
      have hcast := hs.castBPGC_frame p
      cases h1 : CastBPGC W p with
      | none =>
        cases h2 : CastBPGC W' p with
        | none => simp [FindBestArchetype.loop]
        | some q => simp [h1, h2] at hcast
      | some q =>
        cases h2 : CastBPGC W' p with
        | none => simp [h1, h2] at hcast
        | some q' =>
          obtain ⟨c, cls⟩ := q
          obtain ⟨c', cls'⟩ := q'
          simp only [h1, h2, Option.map_some', Option.some.injEq, Prod.mk.injEq,
            UClass.frame] at hcast
          obtain ⟨rfl, hsup, _, _⟩ := hcast
          obtain ⟨_, hc, _⟩ := CastBPGC_eq_some h1
          obtain ⟨_, hc', _⟩ := CastBPGC_eq_some h2
          have e1 := overrideAt_of_lookup Key hc
          have e2 := overrideAt_of_lookup Key hc'
          have e3 := hov c'
          rw [e1, e2] at e3
          have key : ∀ (X : World) (k : UClass),
              FindBestArchetype.loop X Key (f + 1) none (some (c', k)) =
                FindBestArchetype.loop X Key f
                  (k.InheritableComponentHandler.bind
                    (fun h => h.GetOverridenComponentTemplate Key))
                  (CastBPGC X k.SuperClass) := by
            intro X k
            simp only [FindBestArchetype.loop]
            cases k.InheritableComponentHandler <;> rfl
          rw [key, key, e3, hsup]
          exact ih _ _

theorem SameFrame.findSCSNode_eq {W W' : World} (hs : SameFrame W W') (Key : FComponentKey) :
    Key.FindSCSNode W' = Key.FindSCSNode W := by
  have hcast := hs.castBPGC_frame Key.OwnerClass
  unfold FComponentKey.FindSCSNode
  cases h1 : CastBPGC W Key.OwnerClass with
  | none =>
    cases h2 : CastBPGC W' Key.OwnerClass with
    | none => rfl
    | some q => simp [h1, h2] at hcast
  | some q =>
    cases h2 : CastBPGC W' Key.OwnerClass with
    | none => simp [h1, h2] at hcast
    | some q' =>
      simp only [h1, h2, Option.map_some', Option.some.injEq, Prod.mk.injEq,
        UClass.frame] at hcast
      simp only [hcast.2.2.2]

theorem SameFrame.getOriginalTemplate_eq {W W' : World} (hs : SameFrame W W')
    (Key : FComponentKey) (T : FName) :
    Key.GetOriginalTemplate W' T = Key.GetOriginalTemplate W T := by
  simp only [FComponentKey.GetOriginalTemplate, hs.findSCSNode_eq]

theorem FindBestArchetype_congr {W W' : World} (Key : FComponentKey) (hs : SameFrame W W')
    (hov : ∀ i, W'.overrideAt Key i = W.overrideAt Key i) (fuel : Nat)
    (Outer : Option ClassId) (T : FName) :
    FindBestArchetype fuel W' Outer Key T = FindBestArchetype fuel W Outer Key T := by
  have hcast := hs.castBPGC_frame Outer
  have hloop := FindBestArchetype_loop_congr Key hs hov fuel none Outer
  unfold FindBestArchetype
  cases h1 : CastBPGC W Outer with
  | none =>
    cases h2 : CastBPGC W' Outer with
    | none => rfl
    | some q => simp [h1, h2] at hcast
  | some q =>
    cases h2 : CastBPGC W' Outer with
    | none => simp [h1, h2] at hcast
    | some q' =>
      obtain ⟨c, cls⟩ := q
      obtain ⟨c', cls'⟩ := q'
      simp only [h1, h2, Option.map_some', Option.some.injEq, Prod.mk.injEq] at hcast
      obtain ⟨rfl, _⟩ := hcast
      rw [h1, h2] at hloop
      simp only [hloop, hs.getOriginalTemplate_eq]

theorem GetOverriden_append_default (H : UInheritableComponentHandler) (Key : FComponentKey)
    (hown : Key.OwnerClass ≠ none) :
    UInheritableComponentHandler.GetOverridenComponentTemplate
      { H with Records := H.Records ++ [FComponentOverrideRecord.default] } Key =
    H.GetOverridenComponentTemplate Key := by
  have hm : FComponentKey.Match FComponentOverrideRecord.default.ComponentKey Key = false := by
    cases hk : Key.OwnerClass with
    | none => exact absurd hk hown
    | some x =>
      simp [FComponentKey.Match, FComponentOverrideRecord.default, FComponentKey.empty, hk]
  simp only [UInheritableComponentHandler.GetOverridenComponentTemplate,
    UInheritableComponentHandler.FindRecord, List.find?_append]
  cases hf : List.find? (fun r => r.ComponentKey.Match Key) H.Records with
  | some r => simp
  | none => simp [List.find?, hm]

/-- Adding the default slot to the handler of class `c` changes no override held for a key that
has an owner. -/
theorem overrideAt_slot {W W1 : World} {c : ClassId} {cls : UClass}
    {H : UInheritableComponentHandler} (Key : FComponentKey) (hown : Key.OwnerClass ≠ none)
    (hK : Keep W W1)
    (hc1 : W1.Classes[c]? = some { cls with InheritableComponentHandler := some H }) (i : ClassId) :
    (W1.setHandler c cls
        { H with Records := H.Records ++ [FComponentOverrideRecord.default] }).overrideAt Key i =
      W.overrideAt Key i := by
  have hkeep : W1.overrideAt Key i = W.overrideAt Key i := by
    rcases hK.handlerOf i with h1 | ⟨h0, h1⟩
    · simp [World.overrideAt, h1]
    · simp [World.overrideAt, h0, h1,
        UInheritableComponentHandler.GetOverridenComponentTemplate,
        UInheritableComponentHandler.FindRecord]
  rw [← hkeep]
  by_cases hi : c = i
  · subst hi
    rw [overrideAt_of_lookup Key (setHandler_lookup_self cls _ hc1),
      overrideAt_of_lookup Key hc1]
    simp only [Option.some_bind]
    exact GetOverriden_append_default H Key hown
  · simp [World.overrideAt, World.handlerOf, setHandler_lookup_ne W1 cls _ hi]

theorem objects_of_map {W W' : World}
    (h : W'.Classes.map UClass.objects = W.Classes.map UClass.objects) :
    W'.objects = W.objects := by
  simp only [World.objects, h]

theorem Keep.objects_eq {W W1 : World} (h : Keep W W1) : W1.objects = W.objects := by
  apply objects_of_map
  apply List.ext_getElem?
  intro i
  rw [List.getElem?_map, List.getElem?_map]
  rcases h.2.2.2 i with h1 | ⟨cls, h0, hn, h1⟩
  · rw [h1]
  · rw [h1, h0]
    simp [UClass.objects, hn]

/-- The default slot added to the handler of class `c` brings no object. -/
theorem objects_slot {W1 : World} {c : ClassId} {cls : UClass}
    {H : UInheritableComponentHandler}
    (hc1 : W1.Classes[c]? = some { cls with InheritableComponentHandler := some H }) :
    (W1.setHandler c cls
        { H with Records := H.Records ++ [FComponentOverrideRecord.default] }).objects =
      W1.objects := by
  apply objects_of_map
  apply List.ext_getElem?
  intro i
  rw [List.getElem?_map, List.getElem?_map]
  by_cases hi : c = i
  · subst hi
    rw [setHandler_lookup_self cls _ hc1, hc1]
    simp [UClass.objects, FComponentOverrideRecord.default, List.filterMap_append]
  · rw [setHandler_lookup_ne W1 cls _ hi]

theorem SameFrame.templateName_eq {W W' : World} (hs : SameFrame W W') (Key : FComponentKey)
    (best : UActorComponent) :
    CreateNewRecord.templateName W' Key best = CreateNewRecord.templateName W Key best := by
  simp only [CreateNewRecord.templateName, hs.findSCSNode_eq]

theorem GetComponentTemplate_appends (fuel D : Nat) (W W1 : World) (a : AActor)
    (N : FName) (C A : ClassId) (cls : UClass) (H : UInheritableComponentHandler)
    (node : USCS_Node) (best : UActorComponent)
    (hv : IsValid (some a) = true)
    (hfirst : GetFirstManagedClass W fuel (some a.Class) = .ok (some C))
    (hcls : W.Classes[C]? = some cls)
    (hnoNode : W.nodeNamed N C = none)
    (hG : GetInheritableComponentHandler W C cls true = (W1, some H))
    (hO : H.GetOverridenComponentTemplate (H.FindKey N) = none)
    (hfin : ChainEnds W D (some C) = true) (hD : D < fuel)
    (hnear : (BlueprintChain W D (some C)).findSome?
      (fun c => (W.nodeNamed N c).map (fun nd => (c, nd))) = some (A, node))
    (hbest : FindBestArchetype fuel W H.Outer (FComponentKey.ofNode A node) NAME_None =
      .ok (some best)) :
    ∃ o t, GetComponentTemplate fuel W (some a) N = .ok o ∧ o.Ret = some t ∧ o.Log = [] ∧
      W.recordsOf C = H.Records ∧
      o.World.recordsOf C = H.Records ++
        [{ ComponentKey := FComponentKey.ofNode A node,
           ComponentClass := some best.Class,
           ComponentTemplate := some t }] ∧
      (∀ i, i ≠ C → o.World.recordsOf i = W.recordsOf i) ∧
      t.Archetype = some best.Id ∧ t.Class = best.Class ∧ t.Outer = H.Outer ∧
      t.Name = CreateNewRecord.templateName W (FComponentKey.ofNode A node) best ∧
      (W.FindObject H.Outer
          (CreateNewRecord.templateName W (FComponentKey.ofNode A node) best) = none →
        t.Id = W.NextObjectId ∧ o.World.NextObjectId = W.NextObjectId + 1) ∧
      (∀ old, W.FindObject H.Outer
          (CreateNewRecord.templateName W (FComponentKey.ofNode A node) best) = some old →
        t.Id = old.Id ∧ o.World.NextObjectId = W.NextObjectId) := by
  obtain ⟨cls', hcls', hk⟩ := GetFirstManagedClass_managed W fuel _ C hfirst
  have : cls' = cls := by rw [hcls] at hcls'; injection hcls' with h; exact h.symm
  subst this
  obtain ⟨hK, _, hsome⟩ := GetInheritableComponentHandler_spec hcls hG
  obtain ⟨hc1, hH⟩ := hsome H rfl
  have hs := hK.toFrame
  have hrecW : W.recordsOf C = H.Records := by
    rcases hH with h1 | ⟨h1, h2⟩
    · simp [World.recordsOf, handlerOf_of_lookup hcls, h1]
    · simp [World.recordsOf, handlerOf_of_lookup hcls, h1, h2]
  have hcast1 : CastBPGC W1 (some C) =
      some (C, { cls' with InheritableComponentHandler := some H }) :=
    CastBPGC_of hc1 (by simp [hk])
  have hfind := findOriginalTemplate_eq W1 N D fuel (some C)
    (by rw [hs.chainEnds_eq]; exact hfin) hD
  rw [hcast1, hs.blueprintChain_eq] at hfind
  have hfun : (fun c => (W1.nodeNamed N c).map (fun nd => (c, nd))) =
      (fun c => (W.nodeNamed N c).map (fun nd => (c, nd))) := by
    funext c; rw [hs.nodeNamed_eq]
  rw [hfun, hnear] at hfind
  have hs2 : SameFrame W (W1.setHandler C cls'
      { H with Records := H.Records ++ [FComponentOverrideRecord.default] }) :=
    hs.frame_trans (SameFrame.setHandler_of _ hc1)
  have hbest2 := FindBestArchetype_congr (FComponentKey.ofNode A node) hs2
    (overrideAt_slot (FComponentKey.ofNode A node) (by simp [FComponentKey.ofNode]) hK hc1)
    fuel H.Outer NAME_None
  rw [hbest] at hbest2
  have hname := hs2.templateName_eq (FComponentKey.ofNode A node) best
  have hobj : (W1.setHandler C cls'
      { H with Records := H.Records ++ [FComponentOverrideRecord.default] }).objects =
      W.objects := (objects_slot hc1).trans hK.objects_eq
  have hnn : cls'.SimpleConstructionScript.bind (fun SCS => SCS.FindSCSNode N) = none := by
    rw [← nodeNamed_of_lookup N hcls]; exact hnoNode
  obtain ⟨f, rfl⟩ : ∃ f, fuel = f + 1 := ⟨fuel - 1, by omega⟩
  have hlt := length_of_lookup hc1
  rcases hN : NewObject
      (W1.setHandler C cls'
        { H with Records := H.Records ++ [FComponentOverrideRecord.default] })
      H.Outer best.Class
      (CreateNewRecord.templateName
        (W1.setHandler C cls'
          { H with Records := H.Records ++ [FComponentOverrideRecord.default] })
        (FComponentKey.ofNode A node) best)
      [EObjectFlags.RF_ArchetypeObject, EObjectFlags.RF_Public,
        EObjectFlags.RF_InheritableComponentTemplate] best with ⟨W3, t⟩
  obtain ⟨hcl, hnm, hclass, hout, _, harch, hfresh, hreuse⟩ := NewObject_spec hN
  have hfo : ∀ nm, (W1.setHandler C cls'
      { H with Records := H.Records ++ [FComponentOverrideRecord.default] }).FindObject
        H.Outer nm = W.FindObject H.Outer nm := by
    intro nm
    simp only [World.FindObject, hobj]
  rw [hname] at hnm
  rw [hname, hfo] at hfresh hreuse
  have hnext : (W1.setHandler C cls'
      { H with Records := H.Records ++ [FComponentOverrideRecord.default] }).NextObjectId =
      W.NextObjectId := hK.1
  rw [hnext] at hfresh hreuse
  have hrun : GetComponentTemplate (f + 1) W (some a) N =
      .ok { Ret := some t,
            World := W3.setHandler C cls'
              { H with Records := H.Records ++
                [{ ComponentKey := FComponentKey.ofNode A node,
                   ComponentClass := some t.Class, ComponentTemplate := some t }] },
            Log := [], Visited := [C] } := by
    simp only [GetComponentTemplate, hv, if_true, hfirst]
    rw [loop_succ, IsManagedType_of_managed W C cls' hcls hk]
    simp only [GetComponentTemplate.body, hnn, hG, hO, hfind, CreateNewRecord, hbest2, hN]
    rfl
  have hlt3 : C < W3.Classes.length := by
    rw [hcl]; simpa [World.setHandler] using hlt
  refine ⟨_, t, hrun, rfl, rfl, hrecW, ?_, ?_, harch, hclass, hout, hnm, ?_, ?_⟩
  · simp [World.recordsOf, World.handlerOf, World.setHandler, List.getElem?_set, hlt3, hclass]
  · intro i hi
    rw [← hK.recordsOf i]
    simp [World.recordsOf, World.handlerOf, World.setHandler, hcl, List.getElem?_set,
      Ne.symm hi]
  · intro h0
    exact ⟨(hfresh h0).1, by simpa [World.setHandler] using (hfresh h0).2⟩
  · intro old h0
    exact ⟨(hreuse old h0).1, by simpa [World.setHandler] using (hreuse old h0).2⟩

theorem NodesHaveTemplates.transfer_templates {W W' : World} (h : NodesHaveTemplates W)
    (hs : SameFrame W W') : NodesHaveTemplates W' := by
  intro c cls' SCS n hc' hscs hn
  obtain ⟨cls, hc, _, _, hs1⟩ := hs.symm.lookup hc'
  exact h c cls SCS n hc (hs1.trans hscs) hn

theorem NodesHaveKeys.transfer_keys {W W' : World} (h : NodesHaveKeys W)
    (hs : SameFrame W W') : NodesHaveKeys W' := by
  intro c cls' SCS n hc' hscs hn
  obtain ⟨cls, hc, _, _, hs1⟩ := hs.symm.lookup hc'
  exact h c cls SCS n hc (hs1.trans hscs) hn

theorem OutersOwn.after_keep {W W1 : World} (h : OutersOwn W) (hK : Keep W W1) : OutersOwn W1 := by
  intro c cls1 H hc1 hH
  rcases hK.2.2.2 c with h1 | ⟨cls, h0, hn, h1⟩
  · rw [h1] at hc1
    exact h c cls1 H hc1 hH
  · rw [h1] at hc1
    injection hc1 with hc1
    subst hc1
    simp only [Option.some.injEq] at hH
    subst hH
    rfl

/-- The node the inner loop finds belongs to a Blueprint-generated class of the state. -/
theorem findOriginalTemplate_sound (W : World) (N : FName) :
    ∀ (fuel : Nat) (p : Option ClassId) (A : ClassId) (node : USCS_Node),
      GetComponentTemplate.findOriginalTemplate W N fuel (CastBPGC W p) = .ok (some (A, node)) →
      (∃ clsA, CastBPGC W (some A) = some (A, clsA)) ∧ W.nodeNamed N A = some node := by
  intro fuel
  induction fuel with
  | zero => intro p A node h; simp [GetComponentTemplate.findOriginalTemplate] at h
  | succ f ih =>
    intro p A node h
    cases hcast : CastBPGC W p with
    | none => simp [GetComponentTemplate.findOriginalTemplate, hcast] at h
    | some pr =>
      obtain ⟨c, cls⟩ := pr
      obtain ⟨rfl, hc, hk⟩ := CastBPGC_eq_some hcast
      simp only [GetComponentTemplate.findOriginalTemplate, hcast] at h
      cases hN : cls.SimpleConstructionScript.bind (fun SCS => SCS.FindSCSNode N) with
      | some nd =>
        simp only [hN, Except.ok.injEq, Option.some.injEq, Prod.mk.injEq] at h
        obtain ⟨rfl, rfl⟩ := h
        exact ⟨⟨cls, hcast⟩, by rw [nodeNamed_of_lookup N hc]; exact hN⟩
      | none =>
        simp only [hN] at h
        exact ih _ _ _ h

theorem findOriginalTemplate_error (W : World) (N : FName) :
    ∀ (fuel : Nat) (start : Option (ClassId × UClass)) (e : Err),
      GetComponentTemplate.findOriginalTemplate W N fuel start = .error e → e = Err.outOfFuel := by
  intro fuel
  induction fuel with
  | zero =>
    intro start e h
    simp only [GetComponentTemplate.findOriginalTemplate, Except.error.injEq] at h
    exact h.symm
  | succ f ih =>
    intro start e h
    cases start with
    | none => simp [GetComponentTemplate.findOriginalTemplate] at h
    | some pr =>
      obtain ⟨c, cls⟩ := pr
      simp only [GetComponentTemplate.findOriginalTemplate] at h
      cases hN : cls.SimpleConstructionScript.bind (fun SCS => SCS.FindSCSNode N) with
      | some nd => simp [hN] at h
      | none =>
        simp only [hN] at h
        exact ih _ _ h

theorem FindBestArchetype_loop_error (W : World) (Key : FComponentKey) :
    ∀ (fuel : Nat) (Closest : Option UActorComponent) (Main : Option (ClassId × UClass))
      (e : Err), FindBestArchetype.loop W Key fuel Closest Main = .error e →
      e = Err.outOfFuel := by
  intro fuel
  induction fuel with
  | zero =>
    intro Closest Main e h
    simp only [FindBestArchetype.loop, Except.error.injEq] at h
    exact h.symm
  | succ f ih =>
    intro Closest Main e h
    cases Closest with
    | some t => simp [FindBestArchetype.loop] at h
    | none =>
      cases Main with
      | none => simp [FindBestArchetype.loop] at h
      | some pr =>
        obtain ⟨c, cls⟩ := pr
        simp only [FindBestArchetype.loop] at h
        exact ih _ _ _ h

/-- The original template of the key of a node with a template and an SCS key is not null. -/
theorem GetOriginalTemplate_ne_none {W : World} (hT : NodesHaveTemplates W)
    (hKy : NodesHaveKeys W) {N : FName} {A : ClassId} {clsA : UClass} {node : USCS_Node}
    (hA : CastBPGC W (some A) = some (A, clsA)) (hnode : W.nodeNamed N A = some node)
    (T : FName) : (FComponentKey.ofNode A node).GetOriginalTemplate W T ≠ none := by
  obtain ⟨_, hcA, _⟩ := CastBPGC_eq_some hA
  rw [nodeNamed_of_lookup N hcA] at hnode
  cases hscs : clsA.SimpleConstructionScript with
  | none => simp [hscs] at hnode
  | some SCS =>
    simp only [hscs, Option.some_bind, USimpleConstructionScript.FindSCSNode] at hnode
    have hmem : node ∈ SCS.AllNodes := List.mem_of_find?_eq_some hnode
    have hkey := hKy A clsA SCS node hcA hscs hmem
    have hsome : (SCS.FindSCSNodeByGuid node.VariableGuid).isSome = true := by
      simp only [USimpleConstructionScript.FindSCSNodeByGuid, List.find?_isSome]
      exact ⟨node, hmem, by simp⟩
    cases hfind : SCS.FindSCSNodeByGuid node.VariableGuid with
    | none => simp [hfind] at hsome
    | some n' =>
      have hmem' : n' ∈ SCS.AllNodes := List.mem_of_find?_eq_some hfind
      have hfs : (FComponentKey.ofNode A node).FindSCSNode W = some (SCS, n') := by
        simp only [FComponentKey.FindSCSNode]
        have ho : (FComponentKey.ofNode A node).OwnerClass = some A := rfl
        have hg : (FComponentKey.ofNode A node).AssociatedGuid = node.VariableGuid := rfl
        rw [ho, hA]
        simp only [hkey, if_true, hscs, hg, hfind, Option.map_some']
      simp only [FComponentKey.GetOriginalTemplate, hkey, if_true, hfs]
      exact hT A clsA SCS n' hcA hscs hmem'

/-- With templates and SCS keys on every node, `FindBestArchetype` from a Blueprint-generated
class other than the key's owner does not return null. -/
theorem FindBestArchetype_ne_none {W : World} (hT : NodesHaveTemplates W)
    (hKy : NodesHaveKeys W) {N : FName} {c A : ClassId} {cls clsA : UClass} {node : USCS_Node}
    (hc : CastBPGC W (some c) = some (c, cls))
    (hA : CastBPGC W (some A) = some (A, clsA)) (hne : c ≠ A)
    (hnode : W.nodeNamed N A = some node) (F : Nat) (T : FName) :
    FindBestArchetype F W (some c) (FComponentKey.ofNode A node) T ≠ .ok none ∧
    FindBestArchetype F W (some c) (FComponentKey.ofNode A node) T ≠ .error .nullDeref := by
  have hg : ((FComponentKey.ofNode A node).OwnerClass.isSome &&
      some c != (FComponentKey.ofNode A node).OwnerClass) = true := by
    simp [FComponentKey.ofNode, hne]
  simp only [FindBestArchetype, hc, hg, if_true]
  cases hl : FindBestArchetype.loop W (FComponentKey.ofNode A node) F none (some (c, cls)) with
  | error e =>
    have := FindBestArchetype_loop_error W _ F _ _ e hl
    subst this
    simp
  | ok r =>
    cases r with
    | some t => simp
    | none =>
      have := GetOriginalTemplate_ne_none hT hKy hA hnode T
      simp only [ne_eq, Except.ok.injEq, reduceCtorEq, not_false_eq_true, and_true]
      exact this

theorem CreateNewRecord_error {F : Nat} {W : World} {Handler : UInheritableComponentHandler}
    {Key : FComponentKey}
    (h : CreateNewRecord F W Handler Key = .error .nullDeref) :
    FindBestArchetype F W Handler.Outer Key NAME_None = .ok none ∨
    FindBestArchetype F W Handler.Outer Key NAME_None = .error .nullDeref := by
  unfold CreateNewRecord at h
  cases hB : FindBestArchetype F W Handler.Outer Key NAME_None with
  | error e =>
    simp only [hB, Except.error.injEq] at h
    subst h
    exact Or.inr rfl
  | ok r =>
    cases r with
    | none => exact Or.inl rfl
    | some best => simp [hB, NewObject] at h

/-- With templates and SCS keys on every node and handlers owned by their classes, one pass
through the body dereferences no null archetype. -/
theorem body_no_nullDeref {F : Nat} {N : FName} {W : World} {c : ClassId} {cls : UClass}
    {vis : List ClassId} (hc : W.Classes[c]? = some cls) (hk : cls.Kind = EClassKind.Managed)
    (hT : NodesHaveTemplates W) (hKy : NodesHaveKeys W) (hOut : OutersOwn W) :
    GetComponentTemplate.body F N W c cls vis ≠ .error .nullDeref := by
  intro habs
  rcases body_cases F N vis hc with
    ⟨Node, hn, hb⟩ | ⟨hn, W1, hK, ⟨hE, hW, hb⟩ | ⟨H, hc1, hH, ⟨t, hO, hb⟩ |
      ⟨hO, ⟨e, hF', hb⟩ | ⟨hF', hb⟩ | ⟨Owner, Orig, hF', ⟨e, hR, hb⟩ | ⟨W3, rec, hR, hb⟩⟩⟩⟩⟩
  · rw [hb] at habs; cases habs
  · rw [hb] at habs; cases habs
  · rw [hb] at habs; cases habs
  · rw [hb] at habs
    injection habs with habs
    subst habs
    have := findOriginalTemplate_error W1 N F _ _ hF'
    cases this
  · rw [hb] at habs; cases habs
  · rw [hb] at habs
    injection habs with habs
    subst habs
    have hs := hK.toFrame
    have hs2 := SameFrame.setHandler_of
      { H with Records := H.Records ++ [FComponentOverrideRecord.default] } hc1
    have hs02 := hs.frame_trans hs2
    have hcast1 : CastBPGC W1 (some c) =
        some (c, { cls with InheritableComponentHandler := some H }) :=
      CastBPGC_of hc1 (by simp [hk])
    rw [← hcast1] at hF'
    obtain ⟨⟨clsA, hA⟩, hnodeA⟩ := findOriginalTemplate_sound W1 N F _ _ _ hF'
    have hne : c ≠ Owner := by
      intro heq
      subst heq
      rw [hs.nodeNamed_eq, hn] at hnodeA
      cases hnodeA
    have hout : H.Outer = some c := (hOut.after_keep hK) c _ H hc1 rfl
    obtain ⟨_, hcA, hkA⟩ := CastBPGC_eq_some hA
    obtain ⟨clsA2, hcA2, _, hkA2, _⟩ := hs2.lookup hcA
    have hA2 := CastBPGC_of hcA2 (by rw [hkA2]; exact hkA)
    have hc2 := CastBPGC_of
      (setHandler_lookup_self cls
        { H with Records := H.Records ++ [FComponentOverrideRecord.default] } hc1)
      (by simp [hk])
    have hnodeA2 : (W1.setHandler c cls
        { H with Records := H.Records ++ [FComponentOverrideRecord.default] }).nodeNamed N Owner =
        some Orig := by rw [hs2.nodeNamed_eq]; exact hnodeA
    have hfb := FindBestArchetype_ne_none (hT.transfer_templates hs02) (hKy.transfer_keys hs02)
      hc2 hA2 hne hnodeA2 F NAME_None
    have hR' := CreateNewRecord_error hR
    rw [← hout] at hfb
    rcases hR' with h | h
    · exact hfb.1 h
    · exact hfb.2 h
  · rw [hb] at habs; cases habs

theorem loop_no_nullDeref (F : Nat) (a : AActor) (N : FName) :
    ∀ (fuel : Nat) (W : World) (cur : Option ClassId) (vis : List ClassId),
      NodesHaveTemplates W → NodesHaveKeys W → OutersOwn W →
      GetComponentTemplate.loop F a N fuel W cur vis ≠ .error .nullDeref := by
  intro fuel
  induction fuel with
  | zero => intro W cur vis _ _ _ h; simp [GetComponentTemplate.loop] at h
  | succ f ih =>
    intro W cur vis hT hKy hOut
    rw [loop_succ]
    cases hM : IsManagedType W cur with
    | none => simp
    | some pr =>
      obtain ⟨c, cls⟩ := pr
      obtain ⟨rfl, hc, hk⟩ := IsManagedType_eq_some hM
      simp only []
      cases hB : GetComponentTemplate.body F N W c cls vis with
      | error e =>
        intro habs
        injection habs with habs
        subst habs
        exact body_no_nullDeref hc hk hT hKy hOut hB
      | ok fl =>
        cases fl with
        | Return o => simp
        | Next W1 =>
          have hK := body_next_keep hc hB
          exact ih W1 _ _ (hT.transfer_templates hK.toFrame) (hKy.transfer_keys hK.toFrame)
            (hOut.after_keep hK)

theorem GetFirstManagedClass_error (W : World) :
    ∀ (fuel : Nat) (p : Option ClassId) (e : Err),
      GetFirstManagedClass W fuel p = .error e → e = Err.outOfFuel := by
  intro fuel
  induction fuel with
  | zero =>
    intro p e h
    simp only [GetFirstManagedClass, Except.error.injEq] at h
    exact h.symm
  | succ f ih =>
    intro p e h
    cases p with
    | none => simp [GetFirstManagedClass] at h
    | some c =>
      cases hc : W.Classes[c]? with
      | none => simp [GetFirstManagedClass, hc] at h
      | some cls =>
        by_cases hk : cls.Kind = EClassKind.Managed
        · simp [GetFirstManagedClass, hc, hk] at h
        · simp only [GetFirstManagedClass, hc, hk, if_false] at h
          exact ih _ _ h

theorem GetComponentTemplate_no_nullDeref (fuel : Nat) (W : World) (Actor : Option AActor)
    (N : FName) (hT : NodesHaveTemplates W) (hKy : NodesHaveKeys W) (hOut : OutersOwn W) :
    GetComponentTemplate fuel W Actor N ≠ .error .nullDeref := by
  unfold GetComponentTemplate
  cases hv : IsValid Actor with
  | false => simp
  | true =>
    cases Actor with
    | none => simp
    | some a =>
      simp only [if_true]
      cases hG : GetFirstManagedClass W fuel (some a.Class) with
      | error e =>
        have := GetFirstManagedClass_error W fuel _ e hG
        subst this
        simp
      | ok r => exact loop_no_nullDeref fuel a N fuel W r [] hT hKy hOut

/-! ## The claims -/

/-- C1: when the construction script of the actor's first managed class has a node that answers
to the name, `GetComponentTemplate` returns that node's `ComponentTemplate`, whatever override
records the handlers hold, and leaves the engine state (every handler and every record) as it
was. -/
theorem C1_own_node_is_returned (fuel : Nat) (W : World) (a : AActor) (N : FName) (C : ClassId)
    (cls : UClass) (SCS : USimpleConstructionScript) (Node : USCS_Node)
    (hv : IsValid (some a) = true)
    (hC : GetFirstManagedClass W fuel (some a.Class) = .ok (some C))
    (hcls : W.Classes[C]? = some cls)
    (hSCS : cls.SimpleConstructionScript = some SCS)
    (hNode : SCS.FindSCSNode N = some Node) :
    GetComponentTemplate fuel W (some a) N =
      .ok { Ret := Node.ComponentTemplate, World := W, Log := [], Visited := [C] } := by
  obtain ⟨cls', hcls', hk⟩ := GetFirstManagedClass_managed W fuel _ C hC
  have : cls' = cls := by rw [hcls] at hcls'; injection hcls' with h; exact h.symm
  subst this
  cases fuel with
  | zero => simp [GetFirstManagedClass] at hC
  | succ n =>
    simp only [GetComponentTemplate, hv, if_true, hC]
    unfold GetComponentTemplate.loop
    simp [IsManagedType_of_managed W C cls' hcls hk, GetComponentTemplate.body, hSCS, hNode]

/-- C1 at the parent class of the example, whose handler holds an override for its own `Mesh`:
the node's template is returned, not the override. -/
theorem C1_own_node_is_returned_witness :
    IsValid (some exParentActor) = true ∧
    GetComponentTemplate 5 exWorldOverridden (some exParentActor) "Mesh" =
      .ok { Ret := some exTemplate, World := exWorldOverridden, Log := [], Visited := [1] } :=
  ⟨by decide,
   C1_own_node_is_returned 5 exWorldOverridden exParentActor "Mesh" 1 exParentOverridden
     { AllNodes := [exNode], DefaultSceneRootNode := some exNode } exNode
     (by decide) (by decide) (by decide) (by decide) (by decide)⟩

/-- C2, amended: when the first managed class `C` has no node of the name, the handler that
`GetInheritableComponentHandler(true)` gives for `C` returns no override for `FindKey(N)`, the
nearest class of the Blueprint-generated super-chain of `C` with a node of the name is `A`
with node `node`, and `FindBestArchetype(handler outer, key of node)` returns a non-null
archetype `best`, then `GetComponentTemplate` appends exactly one record to the handler of `C`:
its key is the key of `node`, its template is the object `NewObject` gives for the template
name in the handler's outer (a newly created object when no object of that name lives in that
outer, else that object constructed anew in place), whose archetype is `best` and whose class
is the class of `best`, its component class is that class, and the template is the value
returned; no other handler changes. -/
theorem C2_inherited_component_gets_record (fuel D : Nat) (W W1 : World) (a : AActor)
    (N : FName) (C A : ClassId) (cls : UClass) (H : UInheritableComponentHandler)
    (node : USCS_Node) (best : UActorComponent)
    (hv : IsValid (some a) = true)
    (hfirst : GetFirstManagedClass W fuel (some a.Class) = .ok (some C))
    (hcls : W.Classes[C]? = some cls)
    (hnoNode : W.nodeNamed N C = none)
    (hG : GetInheritableComponentHandler W C cls true = (W1, some H))
    (hO : H.GetOverridenComponentTemplate (H.FindKey N) = none)
    (hfin : ChainEnds W D (some C) = true) (hD : D < fuel)
    (hnear : (BlueprintChain W D (some C)).findSome?
      (fun c => (W.nodeNamed N c).map (fun nd => (c, nd))) = some (A, node))
    (hbest : FindBestArchetype fuel W H.Outer (FComponentKey.ofNode A node) NAME_None =
      .ok (some best)) :
    ∃ o t, GetComponentTemplate fuel W (some a) N = .ok o ∧ o.Ret = some t ∧ o.Log = [] ∧
      W.recordsOf C = H.Records ∧
      o.World.recordsOf C = H.Records ++
        [{ ComponentKey := FComponentKey.ofNode A node,
           ComponentClass := some best.Class,
           ComponentTemplate := some t }] ∧
      (∀ i, i ≠ C → o.World.recordsOf i = W.recordsOf i) ∧
      t.Archetype = some best.Id ∧ t.Class = best.Class ∧ t.Outer = H.Outer ∧
      t.Name = CreateNewRecord.templateName W (FComponentKey.ofNode A node) best ∧
      (W.FindObject H.Outer
          (CreateNewRecord.templateName W (FComponentKey.ofNode A node) best) = none →
        t.Id = W.NextObjectId ∧ o.World.NextObjectId = W.NextObjectId + 1) ∧
      (∀ old, W.FindObject H.Outer
          (CreateNewRecord.templateName W (FComponentKey.ofNode A node) best) = some old →
        t.Id = old.Id ∧ o.World.NextObjectId = W.NextObjectId) :=
  GetComponentTemplate_appends fuel D W W1 a N C A cls H node best hv hfirst hcls hnoNode hG hO
    hfin hD hnear hbest

/-- C2, amended, at the child class of the example, where the handler is created and the
template is a new object (identity 200), and at the state one call leaves behind in
`exWorldStale`, where an object of the template name already lives in the child class and is
constructed anew in place (identity 200 again, no identity used up). -/
theorem C2_inherited_component_gets_record_witness :
    (exWorld.FindObject (some 2) "ICH-Mesh_GEN_VARIABLE" = none ∧
      ∃ o t, GetComponentTemplate 5 exWorld (some exActor) "Mesh" = .ok o ∧ o.Ret = some t ∧
        o.World.recordsOf 2 =
          [{ ComponentKey := FComponentKey.ofNode 1 exNode, ComponentClass := some 7,
             ComponentTemplate := some t }] ∧
        t.Archetype = some 100 ∧ t.Class = 7 ∧ t.Outer = some 2 ∧
        t.Id = 200 ∧ o.World.NextObjectId = 201) ∧
    (exWorldStaleOnce.FindObject (some 2) "ICH-Mesh_GEN_VARIABLE" = some exNewTemplate ∧
      ∃ o t, GetComponentTemplate 5 exWorldStaleOnce (some exActor) "Mesh" = .ok o ∧
        o.Ret = some t ∧
        o.World.recordsOf 2 = [exStaleRecord, exNewRecord] ++
          [{ ComponentKey := FComponentKey.ofNode 1 exNode, ComponentClass := some 7,
             ComponentTemplate := some t }] ∧
        t.Archetype = some 100 ∧ t.Class = 7 ∧ t.Outer = some 2 ∧
        t.Id = 200 ∧ o.World.NextObjectId = 201) := by
  refine ⟨⟨by decide, ?_⟩, ⟨by decide, ?_⟩⟩
  · obtain ⟨o, t, h1, h2, _, _, h5, _, h7, h8, h9, _, h11, _⟩ :=
      C2_inherited_component_gets_record 5 3 exWorld
        (exWorld.setHandler 2 exChild { Outer := some 2, Records := [] }) exActor "Mesh" 2 1
        exChild { Outer := some 2, Records := [] } exNode exTemplate
        (by decide) (by decide) (by decide) (by decide) (by decide) (by decide) (by decide)
        (by decide) (by decide) (by decide)
    exact ⟨o, t, h1, h2, h5, h7, h8, h9, (h11 (by decide)).1, (h11 (by decide)).2⟩
  · obtain ⟨o, t, h1, h2, _, _, h5, _, h7, h8, h9, _, _, h12⟩ :=
      C2_inherited_component_gets_record 5 3 exWorldStaleOnce exWorldStaleOnce exActor "Mesh"
        2 1 exChildStaleOnce { Outer := some 2, Records := [exStaleRecord, exNewRecord] }
        exNode exTemplate
        (by decide) (by decide) (by decide) (by decide) (by decide) (by decide) (by decide)
        (by decide) (by decide) (by decide)
    exact ⟨o, t, h1, h2, h5, h7, h8, h9, (h12 exNewTemplate (by decide)).1,
      (h12 exNewTemplate (by decide)).2⟩

/-- C2 as stated fails: in the example whose inherited `Mesh` node has no template, the child
class has no node of the name, its handler exists and returns no override for `FindKey`, the
parent class has a node of the name, yet the call appends and returns nothing: it dereferences
the null archetype. -/
theorem C2_counterexample :
    IsValid (some exActor) = true ∧
    GetFirstManagedClass exWorldNoTemplate 5 (some exActor.Class) = .ok (some 2) ∧
    exWorldNoTemplate.nodeNamed "Mesh" 2 = none ∧
    (exWorldNoTemplate.handlerOf 2).map
      (fun h => h.GetOverridenComponentTemplate (h.FindKey "Mesh")) = some none ∧
    1 ∈ BlueprintChain exWorldNoTemplate 3 (some 2) ∧
    (exWorldNoTemplate.nodeNamed "Mesh" 1).isSome = true ∧
    FindBestArchetype 5 exWorldNoTemplate (some 2)
      (FComponentKey.ofNode 1 { exNode with ComponentTemplate := none }) NAME_None = .ok none ∧
    GetComponentTemplate 5 exWorldNoTemplate (some exActor) "Mesh" = .error .nullDeref := by
  decide

/-- C3: for a valid actor with a finite super-class chain, when no class of the
Blueprint-generated super-chain of the first managed class has a node that answers to the name
and no handler of a managed class returns an override for `FindKey(N)`, `GetComponentTemplate`
logs one line, of category `LogUnrealSharp` and verbosity `Error`, that names the component and
the actor, returns null, and appends no record to any handler. -/
theorem C3_unknown_component (fuel D : Nat) (W : World) (a : AActor) (N : FName)
    (first : Option ClassId)
    (hv : IsValid (some a) = true)
    (hfin : ChainEnds W D (some a.Class) = true) (hfuel : D < fuel)
    (hfirst : GetFirstManagedClass W fuel (some a.Class) = .ok first)
    (hnode : ∀ c ∈ BlueprintChain W D first, W.nodeNamed N c = none)
    (hov : ∀ cls ∈ W.Classes, cls.Kind = EClassKind.Managed →
      ∀ h ∈ cls.InheritableComponentHandler,
        h.GetOverridenComponentTemplate (h.FindKey N) = none) :
    ∃ o, GetComponentTemplate fuel W (some a) N = .ok o ∧ o.Ret = none ∧
      o.Log =
        [{ Category := "LogUnrealSharp", Verbosity := "Error",
           Message := "Component " ++ (if N = NAME_None then "None" else N) ++
             " not found in actor " ++ a.Name ++ ". Should not happen to DefaultComponents" }] ∧
      (∀ c, o.World.recordsOf c = W.recordsOf c) ∧
      o.World.totalRecords = W.totalRecords :=
  GetComponentTemplate_not_found fuel D W a N first hv hfin hfuel hfirst hnode
    (fun _ cls h hc hk hH => hov cls (List.getElem?_mem hc) hk h (Option.mem_def.mpr hH))

/-- C3 at the example, for a name no class declares and for `NAME_None`. -/
theorem C3_unknown_component_witness :
    (∃ o, GetComponentTemplate 5 exWorld (some exActor) "Nope" = .ok o ∧ o.Ret = none ∧
      o.Log =
        [{ Category := "LogUnrealSharp", Verbosity := "Error",
           Message :=
            "Component Nope not found in actor Hero. Should not happen to DefaultComponents" }] ∧
      (∀ c, o.World.recordsOf c = exWorld.recordsOf c) ∧
      o.World.totalRecords = exWorld.totalRecords) ∧
    (∃ o, GetComponentTemplate 5 exWorld (some exActor) NAME_None = .ok o ∧ o.Ret = none ∧
      o.Log =
        [{ Category := "LogUnrealSharp", Verbosity := "Error",
           Message :=
            "Component None not found in actor Hero. Should not happen to DefaultComponents" }] ∧
      (∀ c, o.World.recordsOf c = exWorld.recordsOf c) ∧
      o.World.totalRecords = exWorld.totalRecords) :=
  ⟨C3_unknown_component 5 3 exWorld exActor "Nope" (some 2)
      (by decide) (by decide) (by decide) (by decide) (by decide) (by decide),
   C3_unknown_component 5 3 exWorld exActor NAME_None (some 2)
      (by decide) (by decide) (by decide) (by decide) (by decide) (by decide)⟩

/-- C4: one call of `GetComponentTemplate` that returns raises the number of override records
over all handlers by at most one, leaves every record that existed in place (each handler's
records are the old ones followed by at most one new one), and a handler gets a record only
when its class is the one being examined, no node of that class answers to the name, and the
handler returned no override for `FindKey(N)`. -/
theorem C4_at_most_one_record_appended (fuel : Nat) (W : World) (Actor : Option AActor)
    (N : FName) (o : Outcome) (h : GetComponentTemplate fuel W Actor N = .ok o) :
    o.World.totalRecords ≤ W.totalRecords + 1 ∧
    (∀ c, ∃ l, o.World.recordsOf c = W.recordsOf c ++ l ∧ l.length ≤ 1) ∧
    (∀ c, o.World.recordsOf c ≠ W.recordsOf c →
      W.nodeNamed N c = none ∧
      (∀ h, W.handlerOf c = some h → h.GetOverridenComponentTemplate (h.FindKey N) = none) ∧
      o.Visited.getLast? = some c) := by
  rcases GetComponentTemplate_frame h with ⟨W1, hK, hW⟩ | ⟨c, hA⟩
  · subst hW
    refine ⟨by rw [hK.totalRecords]; omega, fun c => ⟨[], by simp [hK.recordsOf]⟩, ?_⟩
    intro c hc
    exact absurd (hK.recordsOf c) hc
  · obtain ⟨h1, ⟨r, _, h2, _⟩, h3, h4, h5, h6⟩ := hA.records
    refine ⟨by omega, ?_, ?_⟩
    · intro i
      by_cases hi : i = c
      · subst hi; exact ⟨[r], h2, by simp⟩
      · exact ⟨[], by simp [h3 i hi], by simp⟩
    · intro i hi
      by_cases hic : i = c
      · subst hic; exact ⟨h4, h5, h6⟩
      · exact absurd (h3 i hic) hi

/-- C4 at the example call that appends a record, and with the stale record in place. -/
theorem C4_at_most_one_record_appended_witness :
    GetComponentTemplate 5 exWorld (some exActor) "Mesh" = .ok exOutcome ∧
    exOutcome.World.totalRecords ≤ exWorld.totalRecords + 1 ∧
    (∀ c, ∃ l, exOutcome.World.recordsOf c = exWorld.recordsOf c ++ l ∧ l.length ≤ 1) ∧
    (∀ c, exOutcome.World.recordsOf c ≠ exWorld.recordsOf c →
      exWorld.nodeNamed "Mesh" c = none ∧
      (∀ h, exWorld.handlerOf c = some h →
        h.GetOverridenComponentTemplate (h.FindKey "Mesh") = none) ∧
      exOutcome.Visited.getLast? = some c) :=
  ⟨by decide,
   C4_at_most_one_record_appended 5 exWorld (some exActor) "Mesh" exOutcome (by decide)⟩

/-- C5 fails on the code: the handler of the child class holds one record for the inherited
`Mesh` whose template is missing (no two records with the same key); after the call it holds
two records with that same key. -/
theorem C5_duplicate_key_appended :
    ((exWorldStale.recordsOf 2).map (fun r => r.ComponentKey)).Nodup ∧
    (GetComponentTemplate 5 exWorldStale (some exActor) "Mesh").map
      (fun o => (o.World.recordsOf 2).map (fun r => r.ComponentKey)) =
      .ok [FComponentKey.ofNode 1 exNode, FComponentKey.ofNode 1 exNode] := by
  decide

/-- C6, amended: for an invalid actor (null, or failing `IsValid`) and every name,
`GetComponentTemplate` returns a null pointer, logs nothing and leaves the engine state as it
was. -/
theorem C6_invalid_actor_returns_null (fuel : Nat) (W : World) (Actor : Option AActor)
    (N : FName) (h : IsValid Actor = false) :
    GetComponentTemplate fuel W Actor N =
      .ok { Ret := none, World := W, Log := [], Visited := [] } := by
  simp [GetComponentTemplate, h]

/-- C6, amended, at the null actor. -/
theorem C6_invalid_actor_returns_null_witness :
    IsValid none = false ∧
    GetComponentTemplate 5 exWorld none "Mesh" =
      .ok { Ret := none, World := exWorld, Log := [], Visited := [] } :=
  ⟨by decide, C6_invalid_actor_returns_null 5 exWorld none "Mesh" (by decide)⟩

/-- C6 as stated fails: for an actor that fails `IsValid` the call returns null without
logging anything. -/
theorem C6_counterexample :
    IsValid (some exDeadActor) = false ∧
    (GetComponentTemplate 5 exWorld (some exDeadActor) "Mesh").map (fun o => (o.Ret, o.Log)) =
      .ok (none, []) := by
  decide

/-- C7: on a finite chain `FindBestArchetype` returns what the specification says: null unless
`Outer` is a Blueprint-generated class and the key has an owner other than `Outer`; otherwise
the override held for the key by the nearest class of the Blueprint-generated super-chain
starting at `Outer` itself; otherwise the key's original template. -/
theorem C7_FindBestArchetype_refines (W : World) (n fuel : Nat) (Outer : Option ClassId)
    (Key : FComponentKey) (TemplateName : FName)
    (hfin : ChainEnds W n Outer = true) (hfuel : n < fuel) :
    FindBestArchetype fuel W Outer Key TemplateName =
      .ok (BestArchetypeSpec W n Outer Key TemplateName) :=
  FindBestArchetype_eq_spec W n fuel Outer Key TemplateName hfin hfuel

/-- C7 at the example whose parent class holds an override for `Mesh`: seen from the child
class the best archetype is that override. -/
theorem C7_FindBestArchetype_refines_witness :
    BestArchetypeSpec exWorldOverridden 3 (some 2) (FComponentKey.ofNode 1 exNode) NAME_None =
      some exOtherTemplate ∧
    FindBestArchetype 4 exWorldOverridden (some 2) (FComponentKey.ofNode 1 exNode) NAME_None =
      .ok (BestArchetypeSpec exWorldOverridden 3 (some 2) (FComponentKey.ofNode 1 exNode)
        NAME_None) :=
  ⟨by decide,
   C7_FindBestArchetype_refines exWorldOverridden 3 4 (some 2) (FComponentKey.ofNode 1 exNode)
     NAME_None (by decide) (by decide)⟩

/-- C8: in a class hierarchy whose super-class chains all end within `D` classes,
`GetComponentTemplate` with `D + 1` units of fuel or more never runs out of fuel; the classes
its outer loop examines are managed classes, each examined once, and no more of them than the
actor's chain is deep; and the loop of `FindBestArchetype` ends within one evaluation of its
condition per class of the chain of `Outer`, plus one. -/
theorem C8_terminates_within_depth (W : World) (D fuel : Nat)
    (hfin : ∀ c, c < W.Classes.length → ChainEnds W D (some c) = true) (hfuel : D < fuel) :
    (∀ (Actor : Option AActor) (N : FName),
      GetComponentTemplate fuel W Actor N ≠ .error .outOfFuel) ∧
    (∀ (a : AActor) (N : FName) (o : Outcome) (d : Nat),
      GetComponentTemplate fuel W (some a) N = .ok o → ChainEnds W d (some a.Class) = true →
      o.Visited.Nodup ∧ o.Visited.length ≤ d ∧
      ∀ c ∈ o.Visited, ∃ cls, W.Classes[c]? = some cls ∧ cls.Kind = EClassKind.Managed) ∧
    (∀ (n : Nat) (Outer : Option ClassId) (Key : FComponentKey) (T : FName),
      ChainEnds W n Outer = true → ∃ r, FindBestArchetype (n + 1) W Outer Key T = .ok r) :=
  ⟨GetComponentTemplate_no_outOfFuel W D fuel hfin hfuel,
   fun _ _ _ _ h hd => GetComponentTemplate_visited h hd,
   fun n Outer Key T hn =>
     ⟨_, FindBestArchetype_eq_spec W n (n + 1) Outer Key T hn (Nat.lt_succ_self n)⟩⟩

/-- C8 at the example, whose hierarchy is three classes deep, with four units of fuel. -/
theorem C8_terminates_within_depth_witness :
    (∀ c, c < exWorld.Classes.length → ChainEnds exWorld 3 (some c) = true) ∧
    GetComponentTemplate 4 exWorld (some exActor) "Nope" ≠ .error .outOfFuel ∧
    (∀ o, GetComponentTemplate 4 exWorld (some exActor) "Nope" = .ok o →
      o.Visited.Nodup ∧ o.Visited.length ≤ 3 ∧
      ∀ c ∈ o.Visited, ∃ cls, exWorld.Classes[c]? = some cls ∧ cls.Kind = EClassKind.Managed) ∧
    (∃ r, FindBestArchetype (3 + 1) exWorld (some 2) (FComponentKey.ofNode 1 exNode) NAME_None =
      .ok r) :=
  ⟨by decide,
   (C8_terminates_within_depth exWorld 3 4 (by decide) (by decide)).1 (some exActor) "Nope",
   fun o h => (C8_terminates_within_depth exWorld 3 4 (by decide) (by decide)).2.1
     exActor "Nope" o 3 h (by decide),
   (C8_terminates_within_depth exWorld 3 4 (by decide) (by decide)).2.2 3 (some 2)
     (FComponentKey.ofNode 1 exNode) NAME_None (by decide)⟩

/-- C9 fails on the code: with a record for the inherited `Mesh` whose template is missing,
the first call appends a record and returns its template (object 200); `FindKey` on the handler
then returns a key whose variable name is `Mesh`; the second call returns object 200 again
(`NewObject` finds it under its name and constructs it anew in place) but appends a further
record: the handler holds two records after the first call and three after the second. -/
theorem C9_second_call_appends_again :
    twoCalls 5 exWorldStale (some exActor) "Mesh" 2 = .ok (some 200, 2, some 200, 3) ∧
    (GetComponentTemplate 5 exWorldStale (some exActor) "Mesh").map
      (fun o => (o.World.handlerOf 2).map (fun h => (h.FindKey "Mesh").SCSVariableName)) =
      .ok (some "Mesh") ∧
    (GetComponentTemplate 5 exWorldStale (some exActor) "Mesh").map (fun o => o.World) =
      .ok exWorldStaleOnce := by
  decide

/-- C10, amended: when every construction-script node has a non-null template, a variable name
and a valid GUID, and every handler's outer is the class that holds it, `GetComponentTemplate`
never dereferences a null archetype; whenever it appends a record the template it returns is
not null and has an archetype; and in a finite hierarchy, with enough fuel, it returns. -/
theorem C10_archetype_never_null (fuel : Nat) (W : World) (Actor : Option AActor) (N : FName)
    (hT : ∀ cls ∈ W.Classes, ∀ SCS ∈ cls.SimpleConstructionScript, ∀ n ∈ SCS.AllNodes,
      n.ComponentTemplate ≠ none)
    (hKy : ∀ cls ∈ W.Classes, ∀ SCS ∈ cls.SimpleConstructionScript, ∀ n ∈ SCS.AllNodes,
      n.VariableName ≠ NAME_None ∧ FGuid.IsValid n.VariableGuid = true)
    (hOut : ∀ c, c < W.Classes.length → ∀ cls ∈ W.Classes[c]?,
      ∀ h ∈ cls.InheritableComponentHandler, h.Outer = some c) :
    GetComponentTemplate fuel W Actor N ≠ .error .nullDeref ∧
    (∀ o, GetComponentTemplate fuel W Actor N = .ok o →
      o.World.totalRecords ≠ W.totalRecords →
      ∃ t, o.Ret = some t ∧ t.Archetype ≠ none) ∧
    (∀ D, (∀ c, c < W.Classes.length → ChainEnds W D (some c) = true) → D < fuel →
      ∃ o, GetComponentTemplate fuel W Actor N = .ok o) := by
  have hT' : NodesHaveTemplates W := fun _ cls SCS n hc hs hn =>
    hT cls (List.getElem?_mem hc) SCS (Option.mem_def.mpr hs) n hn
  have hKy' : NodesHaveKeys W := by
    intro c cls SCS n hc hs hn
    obtain ⟨h1, h2⟩ := hKy cls (List.getElem?_mem hc) SCS (Option.mem_def.mpr hs) n hn
    simp [FComponentKey.IsSCSKey, FComponentKey.ofNode, h1, h2]
  have hOut' : OutersOwn W := fun c cls h hc hH =>
    hOut c (length_of_lookup hc) cls (Option.mem_def.mpr hc) h (Option.mem_def.mpr hH)
  refine ⟨GetComponentTemplate_no_nullDeref fuel W Actor N hT' hKy' hOut', ?_, ?_⟩
  · intro o ho hne
    rcases GetComponentTemplate_frame ho with ⟨W1, hK, hW⟩ | ⟨c, hA⟩
    · subst hW
      exact absurd hK.totalRecords hne
    · obtain ⟨_, ⟨r, t, _, hret, _, hta⟩, _⟩ := hA.records
      exact ⟨t, hret, hta⟩
  · intro D hfin hD
    cases hr : GetComponentTemplate fuel W Actor N with
    | ok o => exact ⟨o, rfl⟩
    | error e =>
      cases e with
      | nullDeref =>
        exact absurd hr (GetComponentTemplate_no_nullDeref fuel W Actor N hT' hKy' hOut')
      | outOfFuel =>
        exact absurd hr (GetComponentTemplate_no_outOfFuel W D fuel hfin hD Actor N)

/-- C10, amended, at the example. -/
theorem C10_archetype_never_null_witness :
    GetComponentTemplate 5 exWorld (some exActor) "Mesh" ≠ .error .nullDeref ∧
    (GetComponentTemplate 5 exWorld (some exActor) "Mesh" = .ok exOutcome →
      exOutcome.World.totalRecords ≠ exWorld.totalRecords →
      ∃ t, exOutcome.Ret = some t ∧ t.Archetype ≠ none) ∧
    ((∀ c, c < exWorld.Classes.length → ChainEnds exWorld 3 (some c) = true) → 3 < 5 →
      ∃ o, GetComponentTemplate 5 exWorld (some exActor) "Mesh" = .ok o) :=
  ⟨(C10_archetype_never_null 5 exWorld (some exActor) "Mesh"
      (by decide) (by decide) (by decide)).1,
   (C10_archetype_never_null 5 exWorld (some exActor) "Mesh"
      (by decide) (by decide) (by decide)).2.1 exOutcome,
   (C10_archetype_never_null 5 exWorld (some exActor) "Mesh"
      (by decide) (by decide) (by decide)).2.2 3⟩

/-- C10 as stated fails: in the example whose inherited `Mesh` node has a template but no valid
GUID, every node has a template and every handler's outer is its class, yet the key of the node
is no SCS key, `FindBestArchetype` returns null and `CreateNewRecord` dereferences it. -/
theorem C10_counterexample :
    (∀ cls ∈ exWorldNoGuid.Classes, ∀ SCS ∈ cls.SimpleConstructionScript, ∀ n ∈ SCS.AllNodes,
      n.ComponentTemplate ≠ none) ∧
    (∀ c, c < exWorldNoGuid.Classes.length → ∀ cls ∈ exWorldNoGuid.Classes[c]?,
      ∀ h ∈ cls.InheritableComponentHandler, h.Outer = some c) ∧
    FindBestArchetype 5 exWorldNoGuid (some 2)
      (FComponentKey.ofNode 1 { exNode with VariableGuid := 0 }) NAME_None = .ok none ∧
    GetComponentTemplate 5 exWorldNoGuid (some exActor) "Mesh" = .error .nullDeref := by
  decide

end UnrealSharp
